import Mathlib

/-!
Verification development for the card-battle combat engine
(`card_game/combat.py`, `card_game/player.py`, `card_game/card.py`,
`card_game/card_registry.py`, `card_game/deck_factory.py`).

The Python code is shallowly embedded: mutable objects become immutable
structures with explicit state passing, floats used only for timers and
utility scores become rationals (all constants involved — 0.2, 0.5, 0.8,
1.5, 2.0, 3.0 — are exact and the comparisons at stake have wide margins),
and the `random.shuffle` call is modelled as the identity permutation
(shuffling permutes a list in place; none of the properties below depend
on which permutation is chosen).
-/

namespace CardGame

/-- Card kinds, from `CardType` in `card.py`.  The `SPECIAL` member of the
Python enum has no concrete card class in the repository and no behaviour
anywhere in the engine, so it is omitted from the card universe.

The concrete card classes in `card.py` are `BasicAttack` subclasses
(with a `damage` field), `HealCard` subclasses (with a `heal_amount`
field).  Modelled from the spec: a Defense card class carrying a
`defense_value` field.  The repository's combat engine reads
`counter_card.defense_value` (`combat.py` line 667) and filters hands by
`CardType.DEFENSE`, but the defense card class itself (the
"energy_shield" card that `deck_factory.py` tries to instantiate) is
missing from the source tree, so its single numeric field follows §3 of
the spec: `defense_value` (present iff kind=Defense; reduces incoming
attack damage when used as a counter). -/
inductive Card where
  | attack (damage : Nat)
  | heal (healAmount : Nat)
  | defense (defenseValue : Nat)
deriving DecidableEq, Repr

def Card.isAttack : Card → Bool
  | .attack _ => true
  | _ => false

def Card.isHeal : Card → Bool
  | .heal _ => true
  | _ => false

def Card.isDefense : Card → Bool
  | .defense _ => true
  | _ => false

/-- `defense_value` attribute access on the counter card
(`combat.py` line 667).  Only ever reached on defense cards. -/
def Card.defenseValueOf : Card → Nat
  | .defense v => v
  | _ => 0

/-- A player or enemy combatant, from `Player` in `player.py`.
The `name` string is display-only and omitted. -/
structure Player where
  maxHitPoints : Int
  hitPoints : Int
  hand : List Card
  deck : List Card
  discardPile : List Card
deriving DecidableEq, Repr

namespace Player

/-- `Player.take_damage` (`player.py` lines 30-42): clamps at current HP,
returns the actual damage taken together with the updated player. -/
def takeDamage (p : Player) (amount : Int) : Int × Player :=
  let actual := min amount p.hitPoints
  (actual, { p with hitPoints := p.hitPoints - actual })

/-- `Player.heal` (`player.py` lines 44-56): clamps at max HP, returns the
actual healing together with the updated player. -/
def heal (p : Player) (amount : Int) : Int × Player :=
  let actual := min amount (p.maxHitPoints - p.hitPoints)
  (actual, { p with hitPoints := p.hitPoints + actual })

/-- `Player.is_defeated` (`player.py` lines 67-74). -/
def isDefeated (p : Player) : Bool := p.hitPoints ≤ 0

/-- `Player.draw_card` (`player.py` lines 76-88): pops the front of the
deck onto the back of the hand; returns `none` on an empty deck. -/
def drawCard (p : Player) : Option Card × Player :=
  match p.deck with
  | [] => (none, p)
  | c :: rest => (some c, { p with deck := rest, hand := p.hand ++ [c] })

/-- Draw `n` times, ignoring the results (the `for _ in range(5)` loops in
`CardCombat.__init__` and `_reset_combat`). -/
def drawN : Nat → Player → Player
  | 0, p => p
  | n + 1, p => drawN n (p.drawCard).2

/-- The draw-to-five loop at the end of an enemy turn
(`combat.py` lines 712-714): `while len(hand) < 5: if not draw: break`.
Implemented with fuel; `deck.length` draws always suffice. -/
def drawLoop : Nat → Player → Player
  | 0, p => p
  | fuel + 1, p =>
    if p.hand.length < 5 then
      match p.deck with
      | [] => p
      | c :: rest => drawLoop fuel { p with deck := rest, hand := p.hand ++ [c] }
    else p

def drawToFull (p : Player) : Player := drawLoop p.deck.length p

/-- `Player.shuffle_deck` (`player.py` lines 109-113).  `random.shuffle`
permutes the deck in place; modelled as the identity permutation. -/
def shuffleDeck (p : Player) : Player := p

/-- `Player.reset_deck` (`player.py` lines 115-128): hand then discard
pile are appended to the deck, and both sources are cleared. -/
def resetDeck (p : Player) : Player :=
  { p with deck := p.deck ++ p.hand ++ p.discardPile, hand := [], discardPile := [] }

end Player

/-! ## Card registry and deck factory
(`card_registry.py`, `deck_factory.py`).

`CARD_REGISTRY` is populated by the `@register_card` decorators in
`card.py`; exactly four ids are registered in the whole source tree:
`kinetic_battle_rifle` (damage 3), `kinetic_sidearm` (damage 2),
`knife` (damage 1) and `med_patch` (heal 2).  `create_card` raises
`ValueError` on an unknown id; raising is modelled with `Except`. -/

def CARD_REGISTRY : List (String × Card) :=
  [("kinetic_battle_rifle", .attack 3),
   ("kinetic_sidearm", .attack 2),
   ("knife", .attack 1),
   ("med_patch", .heal 2)]

/-- `create_card` (`card_registry.py` lines 34-51). -/
def createCard (cardId : String) : Except String Card :=
  match (CARD_REGISTRY.find? fun p => p.1 = cardId) with
  | some p => .ok p.2
  | none => .error ("Card ID " ++ cardId ++ " not found in registry.")

def buildDeck (ids : List String) : Except String (List Card) :=
  ids.mapM createCard

/-- `create_starter_deck` (`deck_factory.py` lines 8-37): 5 sidearms,
5 knives, 2 rifles, 2 med patches, then 2 of the unregistered
`energy_shield` id. -/
def createStarterDeck : Except String (List Card) :=
  buildDeck (List.replicate 5 "kinetic_sidearm" ++ List.replicate 5 "knife" ++
    List.replicate 2 "kinetic_battle_rifle" ++ List.replicate 2 "med_patch" ++
    List.replicate 2 "energy_shield")

/-- `create_intro_enemy_deck` (`deck_factory.py` lines 40-64). -/
def createIntroEnemyDeck : Except String (List Card) :=
  buildDeck (List.replicate 6 "knife" ++ List.replicate 4 "kinetic_sidearm" ++
    List.replicate 2 "kinetic_battle_rifle")

/-- `create_chapter_boss_deck` (`deck_factory.py` lines 67-91). -/
def createChapterBossDeck : Except String (List Card) :=
  buildDeck (List.replicate 3 "knife" ++ List.replicate 5 "kinetic_sidearm" ++
    List.replicate 4 "kinetic_battle_rifle")

/-- `create_grinder_enemy_deck` (`deck_factory.py` lines 94-122). -/
def createGrinderEnemyDeck : Except String (List Card) :=
  buildDeck (List.replicate 5 "knife" ++ List.replicate 5 "kinetic_sidearm" ++
    List.replicate 2 "kinetic_battle_rifle" ++ List.replicate 2 "med_patch")

/-- `_initialize_enemy_deck` (`combat.py` lines 185-208): unknown deck
identifiers fall back to the intro enemy deck with the balanced persona. -/
def initializeEnemyDeck (enemyDeck : String) : Except String (List Card) × String :=
  if enemyDeck = "intro_enemy" then (createIntroEnemyDeck, "balanced")
  else if enemyDeck = "chapter_boss" then (createChapterBossDeck, "aggressive")
  else if enemyDeck = "grinder_enemy" then (createGrinderEnemyDeck, "balanced")
  else (createIntroEnemyDeck, "balanced")

/-! ## Combat state machine (`combat.py`) -/

/-- The states of `CombatState` (`combat.py` lines 12-26). -/
inductive CombatState where
  | PLAYER_TURN
  | PLAYER_DISCARDING
  | PLAYER_CARD_ANIMATING
  | ENEMY_THINKING
  | ENEMY_CARD_ANIMATING
  | ENEMY_DISCARD_ANIMATING
  | WAITING_FOR_COUNTER
  | COUNTER_ANIMATING
  | WAITING_FOR_RESOLVE
  | RESOLVE_WITH_COUNTER
  | RESHUFFLING
  | VICTORY
  | DEFEAT
deriving DecidableEq, Repr

inductive Side where
  | player
  | enemy
deriving DecidableEq, Repr

/-- A `CardAnimation` (`combat.py` lines 29-73).  Only the timing data
participates in engine logic: the card and the pixel coordinates are
duplicated in the staging fields and used solely for rendering. -/
structure Anim where
  elapsed : ℚ
  duration : ℚ
deriving DecidableEq, Repr

/-- The staged-card slot of `CardCombat`:
`staged_card`, `staged_card_index`, `staged_card_owner` are always
assigned and cleared together. -/
structure Staged where
  card : Card
  idx : Nat
  owner : Side
deriving DecidableEq, Repr

/-- The engine state of `CardCombat` (rendering- and hover-only fields
omitted; `game_context` progress bookkeeping omitted: it receives
attempt/completion counters and never feeds back into combat logic). -/
structure CombatSM where
  player : Player
  enemy : Player
  turn : Nat
  round : Nat
  state : CombatState
  lastStand : Bool
  debugMode : Bool
  persona : String
  anims : List Anim
  staged : Option Staged
  returning : Option (Card × Nat)
  discarding : Option Card
  thinkTimer : ℚ
  reshuffleTimer : ℚ
  reshuffleTarget : Option Side
  reshuffleOwner : Option Side
  counter : Option (Card × Nat)
  discardSel : List Bool
deriving DecidableEq, Repr

/-- `enemy_think_duration` (1.5 seconds, `combat.py` line 171). -/
def enemyThinkDuration : ℚ := 3 / 2

/-- `reshuffle_duration` (2.0 seconds, `combat.py` line 176). -/
def reshuffleDuration : ℚ := 2

namespace CombatSM

/-- `Card.play(player, target)` dispatch (`card.py`): `BasicAttack.play`
damages the target, `HealCard.play` heals the playing side.  No concrete
defense card class exists in the source and the engine never plays one
offensively (defense cards are excluded from the player's playable kinds
and score 0 for the AI), so the defense branch is an unreachable no-op. -/
def playCardEffect (c : Card) (source target : Player) : Player × Player :=
  match c with
  | .attack d => (source, (target.takeDamage d).2)
  | .heal h => ((source.heal h).2, target)
  | .defense _ => (source, target)

def sideGet (sd : Side) (s : CombatSM) : Player :=
  match sd with
  | .player => s.player
  | .enemy => s.enemy

def sideSet (sd : Side) (p : Player) (s : CombatSM) : CombatSM :=
  match sd with
  | .player => { s with player := p }
  | .enemy => { s with enemy := p }

def other : Side → Side
  | .player => .enemy
  | .enemy => .player

/-- `_start_enemy_turn` (`combat.py` lines 514-517). -/
def startEnemyTurn (s : CombatSM) : CombatSM :=
  { s with state := .ENEMY_THINKING, thinkTimer := 0 }

/-- `_start_reshuffle` (`combat.py` lines 519-529). -/
def startReshuffle (target owner : Side) (s : CombatSM) : CombatSM :=
  { s with state := .RESHUFFLING, reshuffleTimer := 0,
           reshuffleTarget := some target, reshuffleOwner := some owner }

/-- `_start_discard_select` (`combat.py` lines 564-566). -/
def startDiscardSelect (s : CombatSM) : CombatSM :=
  { s with state := .PLAYER_DISCARDING }

/-- `_start_card_animation` (`combat.py` lines 399-453): pop the card at
`cardIndex` from the owner's hand, stage it, and start a 0.2 s animation. -/
def startCardAnimation (cardIndex : Nat) (owner : Side) (s : CombatSM) : CombatSM :=
  match (sideGet owner s).hand.get? cardIndex with
  | none => s
  | some c =>
    let p := sideGet owner s
    let s1 := sideSet owner { p with hand := p.hand.eraseIdx cardIndex } s
    { s1 with
      anims := s1.anims ++ [⟨0, 1 / 5⟩],
      staged := some ⟨c, cardIndex, owner⟩,
      state := match owner with
        | .player => .PLAYER_CARD_ANIMATING
        | .enemy => .ENEMY_CARD_ANIMATING }

/-- `_cancel_staged_card` (`combat.py` lines 455-490): move the staged
card into the returning slot and start the 0.2 s return animation. -/
def cancelStagedCard (s : CombatSM) : CombatSM :=
  match s.staged with
  | none => s
  | some st =>
    { s with
      anims := s.anims ++ [⟨0, 1 / 5⟩],
      returning := some (st.card, st.idx),
      staged := none,
      state := .PLAYER_CARD_ANIMATING }

/-- `_start_enemy_discard_animation` (`combat.py` lines 492-512): pop the
card from the enemy hand into the `enemy_discarding_card` slot (the
staged slot is deliberately not used) and start a 0.5 s animation. -/
def startEnemyDiscardAnimation (cardIndex : Nat) (s : CombatSM) : CombatSM :=
  match s.enemy.hand.get? cardIndex with
  | none => s
  | some c =>
    { s with
      enemy := { s.enemy with hand := s.enemy.hand.eraseIdx cardIndex },
      anims := s.anims ++ [⟨0, 1 / 2⟩],
      discarding := some c,
      state := .ENEMY_DISCARD_ANIMATING }

/-- `_start_counter_animation` together with the defense-card selection in
`_handle_counter_click` (`combat.py` lines 302-332). -/
def startCounterAnimation (cardIndex : Nat) (s : CombatSM) : CombatSM :=
  match s.player.hand.get? cardIndex with
  | none => s
  | some c =>
    if c.isDefense then
      { s with
        player := { s.player with hand := s.player.hand.eraseIdx cardIndex },
        counter := some (c, cardIndex),
        anims := s.anims ++ [⟨0, 1 / 5⟩],
        state := .COUNTER_ANIMATING }
    else s

/-- `_calculate_utility` (`combat.py` lines 594-633). -/
def utility (persona : String) (c : Card) (ownerHp ownerMax oppHp : Int) : ℚ :=
  match c with
  | .attack d =>
    let base : ℚ := d
    let scored : ℚ :=
      if persona = "aggressive" then base * (3 / 2)
      else if persona = "timid" then base * (4 / 5)
      else base
    if oppHp ≤ (d : Int) then scored + 100 else scored
  | .heal h =>
    let hpPercent : ℚ := (ownerHp : ℚ) / (ownerMax : ℚ)
    let base : ℚ :=
      if 1 ≤ hpPercent then 0
      else if hpPercent < 3 / 10 then (h : ℚ) * 3
      else if hpPercent < 7 / 10 then (h : ℚ) * (3 / 2)
      else (h : ℚ) * (1 / 2)
    if persona = "timid" then base * (3 / 2)
    else if persona = "aggressive" then base * (4 / 5)
    else base
  | .defense _ => 0

/-- The best-card scan of `_execute_enemy_action` (`combat.py` lines
575-583): running `(best_card_index, best_score)` accumulator, strict
improvement only (stable max, first maximum wins). -/
def bestAux (f : Card → ℚ) : List Card → Nat → Int × ℚ → Int × ℚ
  | [], _, acc => acc
  | c :: cs, i, acc =>
    if acc.2 < f c then bestAux f cs (i + 1) ((i : Int), f c)
    else bestAux f cs (i + 1) acc

def bestCard (f : Card → ℚ) (hand : List Card) : Int × ℚ :=
  bestAux f hand 0 (-1, -1)

/-- The Decision Engine as a pure selector (spec §4.2): `some i` means
play hand index `i`; `none` means the discard fallback (or an empty
hand).  Extracted verbatim from `_execute_enemy_action`. -/
def enemyChoice (persona : String) (hand : List Card)
    (selfHp selfMax oppHp : Int) : Option Nat :=
  if hand = [] then none
  else
    let r := bestCard (fun c => utility persona c selfHp selfMax oppHp) hand
    if 0 < r.2 then some r.1.toNat else none

/-- `_execute_enemy_action` (`combat.py` lines 568-592). -/
def executeEnemyAction (s : CombatSM) : CombatSM :=
  if s.enemy.hand = [] then { s with state := .PLAYER_TURN }
  else
    if 0 < (bestCard (fun c => utility s.persona c s.enemy.hitPoints
        s.enemy.maxHitPoints s.player.hitPoints) s.enemy.hand).2 then
      startCardAnimation
        (bestCard (fun c => utility s.persona c s.enemy.hitPoints
          s.enemy.maxHitPoints s.player.hitPoints) s.enemy.hand).1.toNat .enemy s
    else startEnemyDiscardAnimation 0 s

/-- `_should_open_counter_window` (`combat.py` lines 635-645). -/
def shouldOpenCounterWindow (s : CombatSM) : Bool :=
  match s.staged with
  | none => false
  | some st =>
    st.owner = .enemy && st.card.isAttack &&
      s.player.hand.any fun c => c.isDefense

/-- `_check_vital_signs` (`combat.py` lines 719-743). -/
def checkVitalSigns (s : CombatSM) : CombatSM :=
  if s.enemy.isDefeated then { s with state := .VICTORY }
  else if s.player.isDefeated then
    if s.player.hand.any Card.isHeal then { s with lastStand := true }
    else { s with state := .DEFEAT }
  else if s.lastStand then { s with lastStand := false }
  else s

/-- Append a card to the owner's discard pile
(`discard_pile.append(self.staged_card)`, `combat.py` line 680). -/
def appendDiscardOf (owner : Side) (c : Card) (s : CombatSM) : CombatSM :=
  let p := sideGet owner s
  sideSet owner { p with discardPile := p.discardPile ++ [c] } s

/-- The effect-application part of `_resolve_staged_card`
(`combat.py` lines 653-678): play the staged card against its target,
with the damage temporarily reduced by the counter's `defense_value` when
a counter is present against an Attack (the damage attribute is restored
right after the play, so the staged card itself reaches the discard pile
with its original value); the counter card is discarded to the player's
pile and the counter slot cleared. -/
def resolveApplyEffect (st : Staged) (s : CombatSM) : CombatSM :=
  match s.counter, st.card with
  | some cpair, .attack d =>
    -- reduced_damage = max(0, original_damage - defense_value)
    let reduced := d - cpair.1.defenseValueOf
    let src := sideGet st.owner s
    let tgt := sideGet (other st.owner) s
    let res := playCardEffect (.attack reduced) src tgt
    let s2 := sideSet (other st.owner) res.2 (sideSet st.owner res.1 s)
    { s2 with
      player := { s2.player with discardPile := s2.player.discardPile ++ [cpair.1] },
      counter := none }
  | _, _ =>
    let src := sideGet st.owner s
    let tgt := sideGet (other st.owner) s
    let res := playCardEffect st.card src tgt
    sideSet (other st.owner) res.2 (sideSet st.owner res.1 s)

/-- The reshuffle checks and turn progression at the end of
`_resolve_staged_card` (`combat.py` lines 693-717), entered with the
staging area already cleared. -/
def resolveProgress (owner : Side) (s6 : CombatSM) : CombatSM :=
  if s6.player.hand = [] ∧ s6.player.deck = [] ∧ s6.player.discardPile ≠ [] then
    startReshuffle .player owner s6
  else if s6.enemy.hand = [] ∧ s6.enemy.deck = [] ∧ s6.enemy.discardPile ≠ [] then
    startReshuffle .enemy owner s6
  else if s6.lastStand then s6
  else
    match owner with
    | .player => startEnemyTurn s6
    | .enemy =>
      { s6 with enemy := s6.enemy.drawToFull, turn := s6.turn + 1,
                state := .PLAYER_TURN }

/-- The tail of `_resolve_staged_card` (`combat.py` lines 685-717): early
return in a terminal state (leaving the staged slot occupied), otherwise
clear the staging area, check both sides for a pending reshuffle, and run
turn progression (skipped entirely while `last_stand_active`). -/
def resolveFinish (owner : Side) (s5 : CombatSM) : CombatSM :=
  if s5.state = .VICTORY ∨ s5.state = .DEFEAT then s5
  else resolveProgress owner { s5 with staged := none }

/-- `_resolve_staged_card` (`combat.py` lines 647-717): no-op without a
staged card; otherwise apply the effect, append the staged card to its
owner's discard pile, check vital signs, and finish. -/
def resolveStagedCard (s : CombatSM) : CombatSM :=
  match s.staged with
  | none => s
  | some st =>
    resolveFinish st.owner
      (checkVitalSigns (appendDiscardOf st.owner st.card (resolveApplyEffect st s)))

/-- The discard-pile-into-deck move of `_execute_reshuffle`
(`combat.py` lines 533-544): the recorded target side's deck is replaced
by a copy of its discard pile (shuffled), and the discard pile cleared. -/
def reshuffleMove (s : CombatSM) : CombatSM :=
  match s.reshuffleTarget with
  | some .player =>
    { s with player := { s.player with deck := s.player.discardPile, discardPile := [] } }
  | some .enemy =>
    { s with enemy := { s.enemy with deck := s.enemy.discardPile, discardPile := [] } }
  | none => s

/-- `_execute_reshuffle` (`combat.py` lines 531-562): move the discard
pile, clear the recorded target/owner, and continue turn progression
using the recorded owner unless the combat has ended.  Note the enemy
branch of the turn progression draws exactly one card. -/
def executeReshuffle (s : CombatSM) : CombatSM :=
  if s.state = .VICTORY ∨ s.state = .DEFEAT then
    { reshuffleMove s with reshuffleTarget := none, reshuffleOwner := none }
  else
    match s.reshuffleOwner with
    | some .player =>
      startEnemyTurn
        { reshuffleMove s with reshuffleTarget := none, reshuffleOwner := none }
    | _ =>
      { reshuffleMove s with
        enemy := (Player.drawCard (reshuffleMove s).enemy).2,
        reshuffleTarget := none, reshuffleOwner := none,
        turn := s.turn + 1, state := .PLAYER_TURN }

/-- `_debug_auto_win` (`combat.py` lines 758-762). -/
def debugAutoWin (s : CombatSM) : CombatSM :=
  { s with enemy := { s.enemy with hitPoints := 0 }, state := .VICTORY }

/-- `_debug_auto_lose` (`combat.py` lines 764-768). -/
def debugAutoLose (s : CombatSM) : CombatSM :=
  { s with player := { s.player with hitPoints := 0 }, state := .DEFEAT }

/-- `_reset_combat` (`combat.py` lines 775-817). -/
def resetCombat (s : CombatSM) : CombatSM :=
  let pl := (s.player.resetDeck).shuffleDeck
  let en := Player.drawN 5 (s.enemy.resetDeck).shuffleDeck
  { s with
    player := { pl with hitPoints := pl.maxHitPoints },
    enemy := { en with hitPoints := en.maxHitPoints },
    state := .PLAYER_TURN,
    turn := 1,
    round := s.round + 1,
    lastStand := false,
    anims := [],
    staged := none,
    returning := none,
    thinkTimer := 0,
    discarding := none,
    reshuffleTimer := 0,
    reshuffleTarget := none,
    reshuffleOwner := none,
    counter := none }

/-- Python `list.insert` semantics (clamps the index), used when the
returning card is reinserted into the hand (`combat.py` line 857). -/
def pyInsert (n : Nat) (c : Card) (l : List Card) : List Card :=
  l.take n ++ c :: l.drop n

/-- The completion transitions of `_update_animations`
(`combat.py` lines 850-879), run once all animations have finished. -/
def animationComplete (s : CombatSM) : CombatSM :=
  match s.state with
  | .PLAYER_CARD_ANIMATING =>
    match s.returning with
    | some rc =>
      { s with player := { s.player with hand := pyInsert rc.2 rc.1 s.player.hand },
               returning := none, state := .PLAYER_TURN }
    | none => { s with state := .WAITING_FOR_RESOLVE }
  | .ENEMY_CARD_ANIMATING =>
    if shouldOpenCounterWindow s then { s with state := .WAITING_FOR_COUNTER }
    else { s with state := .WAITING_FOR_RESOLVE }
  | .ENEMY_DISCARD_ANIMATING =>
    let e1 := { s.enemy with discardPile := s.enemy.discardPile ++ s.discarding.toList }
    let e2 := (e1.drawCard).2
    { s with enemy := e2, discarding := none, turn := s.turn + 1,
             state := .PLAYER_TURN }
  | .COUNTER_ANIMATING => { s with state := .RESOLVE_WITH_COUNTER }
  | _ => s

/-- Advance every animation by `dt` and drop the completed ones
(`CardAnimation.update` plus the removal in `_update_animations`). -/
def advanceAnims (dt : ℚ) (l : List Anim) : List Anim :=
  (l.map fun a => ⟨a.elapsed + dt, a.duration⟩ : List Anim).filter
    fun a => a.elapsed < a.duration

/-- `_update_animations` (`combat.py` lines 844-879): advance every
animation by `dt`, drop the completed ones, and if at least one animation
existed and all are now gone, run the completion transition. -/
def updateAnimations (dt : ℚ) (s : CombatSM) : CombatSM :=
  if s.anims ≠ [] ∧ advanceAnims dt s.anims = [] then
    animationComplete { s with anims := advanceAnims dt s.anims }
  else { s with anims := advanceAnims dt s.anims }

/-- `CardCombat.update` (`combat.py` lines 819-842). -/
def update (dt : ℚ) (s : CombatSM) : CombatSM :=
  match s.state with
  | .ENEMY_THINKING =>
    if enemyThinkDuration ≤ s.thinkTimer + dt then
      executeEnemyAction { s with thinkTimer := s.thinkTimer + dt }
    else { s with thinkTimer := s.thinkTimer + dt }
  | .RESHUFFLING =>
    if reshuffleDuration ≤ s.reshuffleTimer + dt then
      executeReshuffle { s with reshuffleTimer := s.reshuffleTimer + dt }
    else { s with reshuffleTimer := s.reshuffleTimer + dt }
  | .PLAYER_CARD_ANIMATING | .ENEMY_CARD_ANIMATING
  | .ENEMY_DISCARD_ANIMATING | .COUNTER_ANIMATING => updateAnimations dt s
  | _ => s

/-- The player intents the engine accepts (spec §6); each constructor
names one branch of the click/keyboard dispatch in `handle_events` /
`_handle_click`.  Pixel geometry and hover bookkeeping are abstracted
into the choice of intent; the enabling conditions the renderer imposes
on hover flags (hand-full checks, last-stand gating, debug mode) are
reproduced in `step`. -/
inductive Op where
  | draw
  | pass
  | beginDiscard
  | playCard (i : Nat)
  | toggleDiscard (i : Nat)
  | confirmDiscard
  | cancelDiscard
  | resolveStaged
  | cancelStaged
  | playDefense (i : Nat)
  | skipCounter
  | debugWin
  | debugLose
  | advance (dt : ℚ)
deriving DecidableEq, Repr

/-- `_handle_player_turn_click` (`combat.py` lines 334-373). -/
def handlePlayerTurn (op : Op) (s : CombatSM) : CombatSM :=
  match op with
  | .debugWin => if s.debugMode then debugAutoWin s else s
  | .debugLose => if s.debugMode then debugAutoLose s else s
  | .draw =>
    -- the draw button is hoverable only when the hand is not full and
    -- last stand is inactive (`_render_action_buttons`)
    if s.player.hand.length < 5 ∧ ¬s.lastStand then
      { s with player := (s.player.drawCard).2 }
    else s
  | .pass =>
    if s.lastStand then { s with state := .DEFEAT } else startEnemyTurn s
  | .beginDiscard => if ¬s.lastStand then startDiscardSelect s else s
  | .playCard i =>
    match s.player.hand.get? i with
    | none => s
    | some c =>
      if s.lastStand then
        if c.isHeal then startCardAnimation i .player s else s
      else
        if c.isAttack ∨ c.isHeal then startCardAnimation i .player s else s
  | _ => s

/-- The confirm loop of `_handle_discard_click`:
`for i in reversed(range(5)): if selected: discard hand[i]`. -/
def discardLoop : List Nat → List Bool → List Card → List Card → List Card × List Card
  | [], _, h, d => (h, d)
  | i :: rest, sel, h, d =>
    if sel.getD i false then
      match h.get? i with
      | some c => discardLoop rest sel (h.eraseIdx i) (d ++ [c])
      | none => discardLoop rest sel h d
    else discardLoop rest sel h d

/-- `_handle_discard_click` (`combat.py` lines 375-397). -/
def handleDiscard (op : Op) (s : CombatSM) : CombatSM :=
  match op with
  | .cancelDiscard =>
    { s with state := .PLAYER_TURN, discardSel := List.replicate 5 false }
  | .toggleDiscard i =>
    if i < s.player.hand.length then
      { s with discardSel := s.discardSel.set i (!(s.discardSel.getD i false)) }
    else s
  | .confirmDiscard =>
    if s.discardSel.any id then
      let moved := discardLoop [4, 3, 2, 1, 0] s.discardSel s.player.hand s.player.discardPile
      startEnemyTurn
        { s with player := { s.player with hand := moved.1, discardPile := moved.2 },
                 discardSel := List.replicate 5 false }
    else s
  | _ => s

/-- `_handle_counter_click` (`combat.py` lines 284-312). -/
def handleCounter (op : Op) (s : CombatSM) : CombatSM :=
  match op with
  | .skipCounter => { s with state := .WAITING_FOR_RESOLVE }
  | .draw =>
    if s.player.hand.length < 5 then { s with player := (s.player.drawCard).2 }
    else s
  | .playDefense i => startCounterAnimation i s
  | _ => s

/-- `_handle_resolve_click` (`combat.py` lines 263-282). -/
def handleResolve (op : Op) (s : CombatSM) : CombatSM :=
  match op with
  | .resolveStaged => resolveStagedCard s
  | .cancelStaged =>
    match s.staged with
    | some st => if st.owner = .player then cancelStagedCard s else s
    | none => s
  | _ => s

/-- `_handle_click` / the SPACE key in `handle_events`
(`combat.py` lines 229-261): any accepted interaction in a terminal state
restarts the combat (`_after_combat` -> `_reset_combat`); the remaining
states dispatch to their handlers; everything else ignores input. -/
def handleClick (op : Op) (s : CombatSM) : CombatSM :=
  match s.state with
  | .VICTORY | .DEFEAT => resetCombat s
  | .WAITING_FOR_RESOLVE | .RESOLVE_WITH_COUNTER => handleResolve op s
  | .WAITING_FOR_COUNTER => handleCounter op s
  | .PLAYER_TURN => handlePlayerTurn op s
  | .PLAYER_DISCARDING => handleDiscard op s
  | _ => s

/-- One engine operation: either a time advance or an intent. -/
def step (op : Op) (s : CombatSM) : CombatSM :=
  match op with
  | .advance dt => update dt s
  | _ => handleClick op s

def run : List Op → CombatSM → CombatSM
  | [], s => s
  | op :: ops, s => run ops (step op s)

/-- `CardCombat.__init__` (`combat.py` lines 85-183) from the point where
the two decks exist: player at 20 max HP with the supplied deck, enemy at
`enemyHp` with its deck shuffled, enemy draws an initial hand of 5. -/
def mkCombat (pDeck eDeck : List Card) (enemyHp : Int) (persona : String)
    (debug : Bool) : CombatSM :=
  let pl : Player :=
    ({ maxHitPoints := 20, hitPoints := 20, hand := [], deck := pDeck,
       discardPile := [] } : Player).shuffleDeck
  let en0 : Player :=
    ({ maxHitPoints := enemyHp, hitPoints := enemyHp, hand := [], deck := eDeck,
       discardPile := [] } : Player).shuffleDeck
  { player := pl,
    enemy := Player.drawN 5 en0,
    turn := 1,
    round := 1,
    state := .PLAYER_TURN,
    lastStand := false,
    debugMode := debug,
    persona := persona,
    anims := [],
    staged := none,
    returning := none,
    discarding := none,
    thinkTimer := 0,
    reshuffleTimer := 0,
    reshuffleTarget := none,
    reshuffleOwner := none,
    counter := none,
    discardSel := List.replicate 5 false }

end CombatSM

/-- Full combat-session construction (`CardCombatState.enter` ->
`CardCombat.__init__`): the player deck comes from
`create_starter_deck()`, the enemy deck and AI persona from
`_initialize_enemy_deck(enemy_deck)`. -/
def initCombat (enemyHp : Int) (enemyDeck : String) (debug : Bool) :
    Except String CombatSM := do
  let pDeck ← createStarterDeck
  let pair := initializeEnemyDeck enemyDeck
  let eDeck ← pair.1
  pure (CombatSM.mkCombat pDeck eDeck enemyHp pair.2 debug)

/-! ## Card-accounting quantities (spec §8, card conservation) -/

namespace CombatSM

/-- 1 if the staged slot holds a card owned by `sd`. -/
def stagedCount (sd : Side) (s : CombatSM) : Nat :=
  match s.staged with
  | some st => if st.owner = sd then 1 else 0
  | none => 0

/-- 1 if the counter slot is occupied (the counter card is always the
player's). -/
def counterCount (sd : Side) (s : CombatSM) : Nat :=
  match sd, s.counter with
  | .player, some _ => 1
  | _, _ => 0

/-- 1 if a cancelled card is in transit back to the player's hand. -/
def returningCount (sd : Side) (s : CombatSM) : Nat :=
  match sd, s.returning with
  | .player, some _ => 1
  | _, _ => 0

/-- 1 if the enemy's discard-fallback card is in transit. -/
def discardingCount (sd : Side) (s : CombatSM) : Nat :=
  match sd, s.discarding with
  | .enemy, some _ => 1
  | _, _ => 0

def isTerminal (s : CombatSM) : Bool :=
  s.state = .VICTORY || s.state = .DEFEAT

/-- The per-side quantity named by the spec:
`|hand| + |deck| + |discard| + (1 if staged) + (1 if counter)`. -/
def claimSum (sd : Side) (s : CombatSM) : Nat :=
  (sideGet sd s).hand.length + (sideGet sd s).deck.length +
    (sideGet sd s).discardPile.length + stagedCount sd s + counterCount sd s

/-- The spec's per-side sum extended with the two transient slots the
code actually uses besides staging: the cancelled card returning to the
player's hand and the enemy's discard-fallback card. -/
def extSum (sd : Side) (s : CombatSM) : Nat :=
  claimSum sd s + returningCount sd s + discardingCount sd s

/-- The inductive conservation quantity: in `Victory`/`Defeat` the staged
slot still points at the card that was just appended to a discard pile
(`_resolve_staged_card` returns before clearing it), so it is not counted
there. -/
def adjSum (sd : Side) (s : CombatSM) : Nat :=
  (sideGet sd s).hand.length + (sideGet sd s).deck.length +
    (sideGet sd s).discardPile.length +
    (if isTerminal s then 0 else stagedCount sd s) +
    counterCount sd s + returningCount sd s + discardingCount sd s

/-- The staged slot holds an enemy-owned Attack card. -/
def stagedEnemyAttack (s : CombatSM) : Prop :=
  ∃ st, s.staged = some st ∧ st.owner = .enemy ∧ ∃ d, st.card = Card.attack d

/-- State well-formedness maintained by every engine operation; each
clause records where the transient single-card slots can be occupied. -/
structure WF (s : CombatSM) : Prop where
  stagedNone :
    s.state = .PLAYER_TURN ∨ s.state = .PLAYER_DISCARDING ∨
      s.state = .ENEMY_THINKING ∨ s.state = .RESHUFFLING ∨
      s.state = .ENEMY_DISCARD_ANIMATING → s.staged = none
  retStaged : s.returning ≠ none →
    s.staged = none ∧ s.state = .PLAYER_CARD_ANIMATING
  discState : s.discarding ≠ none → s.state = .ENEMY_DISCARD_ANIMATING
  wfcClean : s.state = .WAITING_FOR_COUNTER →
    s.counter = none ∧ stagedEnemyAttack s
  counterAt : s.counter ≠ none →
    (s.state = .COUNTER_ANIMATING ∨ s.state = .RESOLVE_WITH_COUNTER) ∧
      stagedEnemyAttack s
  rsTarget : s.state = .RESHUFFLING →
    ∃ t, s.reshuffleTarget = some t ∧ (sideGet t s).deck = []

end CombatSM

/-- The card values of the four registered card classes (the only cards
any reachable deck or hand can contain). -/
def catalog : List Card := [Card.attack 3, Card.attack 2, Card.attack 1, Card.heal 2]

/-! ## Concrete scenario states used by counterexamples and witnesses -/

open CombatSM in
/-- A reachable single-combat start: player deck one Kinetic Sidearm,
enemy deck one Knife, enemy at 15 HP, balanced persona. -/
def startC2 : CombatSM :=
  CombatSM.mkCombat [Card.attack 2] [Card.attack 1] 15 "balanced" false

/-- After drawing, playing the sidearm, letting its staging animation
finish, and cancelling it, the card sits in the returning slot. -/
def opsC2 : List CombatSM.Op :=
  [.draw, .playCard 0, .advance (1 / 5), .cancelStaged]

/-- Scenario for C3 (spec end-to-end scenario C): player at 5 HP holding
a Heal card, enemy's 7-damage Attack staged and unblocked, awaiting the
resolve click. -/
def stateC3 : CombatSM :=
  { player := { maxHitPoints := 20, hitPoints := 5, hand := [Card.heal 2],
                deck := [Card.attack 1], discardPile := [] },
    enemy := { maxHitPoints := 10, hitPoints := 10, hand := [Card.attack 1],
               deck := [Card.attack 1], discardPile := [] },
    turn := 1, round := 1, state := .WAITING_FOR_RESOLVE,
    lastStand := false, debugMode := false, persona := "balanced",
    anims := [], staged := some ⟨Card.attack 7, 0, .enemy⟩,
    returning := none, discarding := none, thinkTimer := 0,
    reshuffleTimer := 0, reshuffleTarget := none, reshuffleOwner := none,
    counter := none, discardSel := List.replicate 5 false }

/-- Scenario for C4: player at 1 HP, enemy Attack of damage 3 staged,
player's Defense of value 1 in the counter slot. -/
def stateC4 : CombatSM :=
  { stateC3 with
    state := .RESOLVE_WITH_COUNTER,
    player := { maxHitPoints := 20, hitPoints := 1, hand := [Card.heal 2],
                deck := [], discardPile := [] },
    staged := some ⟨Card.attack 3, 0, .enemy⟩,
    counter := some (Card.defense 1, 0) }

/-- Scenario for C5: enemy-owned reshuffle pending with six cards in the
enemy discard pile and an empty enemy hand and deck. -/
def stateC5 : CombatSM :=
  { stateC3 with
    state := .RESHUFFLING, staged := none,
    reshuffleTarget := some .enemy, reshuffleOwner := some .enemy,
    enemy := { maxHitPoints := 10, hitPoints := 10, hand := [], deck := [],
               discardPile := List.replicate 6 (Card.attack 1) } }

/-- Scenario for C7's counterexample: the enemy-think timer elapses with
an empty enemy hand. -/
def stateC7 : CombatSM :=
  { stateC3 with
    state := .ENEMY_THINKING, staged := none,
    enemy := { maxHitPoints := 10, hitPoints := 10, hand := [],
               deck := [Card.attack 1], discardPile := [] } }

/-- Scenario for the discard-fallback witnesses: enemy at full health
holding only Heal cards, so every utility score is 0. -/
def stateC10 : CombatSM :=
  { stateC3 with
    state := .ENEMY_THINKING, staged := none,
    enemy := { maxHitPoints := 10, hitPoints := 10,
               hand := [Card.heal 2, Card.heal 3],
               deck := [Card.attack 1], discardPile := [] } }

end CardGame

open CardGame CardGame.CombatSM

/-! # Claim theorems -/

/-- C1.  The claim says starting a combat session always succeeds and no
exception crosses the engine boundary.  In fact `CardCombat.__init__`
always raises: it builds the player deck with `create_starter_deck()`,
which calls `create_card("energy_shield")`, and no card class anywhere in
the source registers the id `energy_shield` (`card.py` registers exactly
`kinetic_battle_rifle`, `kinetic_sidearm`, `knife`, `med_patch`), so
`create_card` raises `ValueError` before any enemy-deck fallback is even
consulted.  For every enemy HP, enemy-deck identifier and debug flag,
session construction yields an error. -/
theorem combat_start_always_raises (enemyHp : Int) (enemyDeck : String) (debug : Bool) :
    (initCombat enemyHp enemyDeck debug).isOk = false := by
  have h : createStarterDeck =
      Except.error "Card ID energy_shield not found in registry." := by rfl
  simp [initCombat, h, Except.isOk, Except.toBool, Bind.bind, Except.bind]

/-- C3.  Spec scenario C: a player at 5 HP holding a Heal card who takes
an unblocked 7-damage Attack should end in `PlayerTurn` with
`last_stand_active = true`.  The code does set `last_stand_active` and
does not enter `Defeat`, but `_resolve_staged_card` skips all turn
progression while `last_stand_active` holds, so the phase silently stays
`WAITING_FOR_RESOLVE` (with an empty staging area), where
`_can_player_act` is false and no heal can ever be played. -/
theorem last_stand_soft_lock :
    (step .resolveStaged stateC3).lastStand = true ∧
    (step .resolveStaged stateC3).state = CombatState.WAITING_FOR_RESOLVE ∧
    (step .resolveStaged stateC3).state ≠ CombatState.DEFEAT ∧
    (step .resolveStaged stateC3).player.hitPoints = 0 := by
  decide

/-- C8.  `take_damage` returns `actual = min(amount, health)` and lowers
health by exactly that much, never below 0; `heal` returns
`actual = min(amount, max_health - health)` and raises health by exactly
that much, never above `max_health` (`player.py` lines 30-56). -/
theorem damage_heal_clamping (p : Player) (amount : Int) (_hamt : 0 ≤ amount) :
    (p.takeDamage amount).1 = min amount p.hitPoints ∧
    ((p.takeDamage amount).2).hitPoints = p.hitPoints - (p.takeDamage amount).1 ∧
    0 ≤ ((p.takeDamage amount).2).hitPoints ∧
    (p.heal amount).1 = min amount (p.maxHitPoints - p.hitPoints) ∧
    ((p.heal amount).2).hitPoints = p.hitPoints + (p.heal amount).1 ∧
    ((p.heal amount).2).hitPoints ≤ p.maxHitPoints := by
  refine ⟨rfl, rfl, ?_, rfl, rfl, ?_⟩ <;>
    · simp only [Player.takeDamage, Player.heal]
      omega

/-- Witness for C8 at a concrete combatant and amount. -/
theorem damage_heal_clamping_witness :
    0 ≤ (7 : Int) ∧
    ((({ maxHitPoints := 20, hitPoints := 5, hand := [], deck := [],
         discardPile := [] } : Player).takeDamage 7).2).hitPoints = 0 := by
  refine ⟨by decide, ?_⟩
  have h := damage_heal_clamping
    { maxHitPoints := 20, hitPoints := 5, hand := [], deck := [], discardPile := [] }
    7 (by decide)
  rw [h.2.1, h.1]
  decide

/-! ## Player bookkeeping lemmas -/

theorem drawCard_discardPile (p : Player) :
    ((p.drawCard).2).discardPile = p.discardPile := by
  unfold Player.drawCard; split <;> rfl

theorem drawCard_hitPoints (p : Player) :
    ((p.drawCard).2).hitPoints = p.hitPoints := by
  unfold Player.drawCard; split <;> rfl

theorem drawCard_maxHitPoints (p : Player) :
    ((p.drawCard).2).maxHitPoints = p.maxHitPoints := by
  unfold Player.drawCard; split <;> rfl

theorem drawLoop_discardPile (fuel : Nat) (p : Player) :
    (Player.drawLoop fuel p).discardPile = p.discardPile := by
  induction fuel generalizing p with
  | zero => rfl
  | succ n ih =>
    unfold Player.drawLoop
    split
    · split
      · rfl
      · rw [ih]
    · rfl

theorem drawLoop_hitPoints (fuel : Nat) (p : Player) :
    (Player.drawLoop fuel p).hitPoints = p.hitPoints := by
  induction fuel generalizing p with
  | zero => rfl
  | succ n ih =>
    unfold Player.drawLoop
    split
    · split
      · rfl
      · rw [ih]
    · rfl

theorem drawToFull_discardPile (p : Player) :
    (p.drawToFull).discardPile = p.discardPile := drawLoop_discardPile _ _

theorem drawToFull_hitPoints (p : Player) :
    (p.drawToFull).hitPoints = p.hitPoints := drawLoop_hitPoints _ _

/-! ## Field-preservation lemmas for the resolution pipeline -/

theorem checkVitalSigns_player (s : CombatSM) :
    (checkVitalSigns s).player = s.player := by
  unfold checkVitalSigns
  repeat' split
  all_goals rfl

theorem checkVitalSigns_enemy (s : CombatSM) :
    (checkVitalSigns s).enemy = s.enemy := by
  unfold checkVitalSigns
  repeat' split
  all_goals rfl

theorem checkVitalSigns_staged (s : CombatSM) :
    (checkVitalSigns s).staged = s.staged := by
  unfold checkVitalSigns
  repeat' split
  all_goals rfl

theorem checkVitalSigns_counter (s : CombatSM) :
    (checkVitalSigns s).counter = s.counter := by
  unfold checkVitalSigns
  repeat' split
  all_goals rfl

theorem checkVitalSigns_turn (s : CombatSM) :
    (checkVitalSigns s).turn = s.turn := by
  unfold checkVitalSigns
  repeat' split
  all_goals rfl

theorem checkVitalSigns_round (s : CombatSM) :
    (checkVitalSigns s).round = s.round := by
  unfold checkVitalSigns
  repeat' split
  all_goals rfl

theorem checkVitalSigns_returning (s : CombatSM) :
    (checkVitalSigns s).returning = s.returning := by
  unfold checkVitalSigns
  repeat' split
  all_goals rfl

theorem checkVitalSigns_discarding (s : CombatSM) :
    (checkVitalSigns s).discarding = s.discarding := by
  unfold checkVitalSigns
  repeat' split
  all_goals rfl

theorem resolveProgress_player_hitPoints (o : Side) (s : CombatSM) :
    (resolveProgress o s).player.hitPoints = s.player.hitPoints := by
  unfold resolveProgress startReshuffle startEnemyTurn
  repeat' split
  all_goals rfl

theorem resolveProgress_player_discardPile (o : Side) (s : CombatSM) :
    (resolveProgress o s).player.discardPile = s.player.discardPile := by
  unfold resolveProgress startReshuffle startEnemyTurn
  repeat' split
  all_goals rfl

theorem resolveProgress_enemy_hitPoints (o : Side) (s : CombatSM) :
    (resolveProgress o s).enemy.hitPoints = s.enemy.hitPoints := by
  unfold resolveProgress startReshuffle startEnemyTurn
  repeat' split
  all_goals simp [drawToFull_hitPoints]

theorem resolveProgress_enemy_discardPile (o : Side) (s : CombatSM) :
    (resolveProgress o s).enemy.discardPile = s.enemy.discardPile := by
  unfold resolveProgress startReshuffle startEnemyTurn
  repeat' split
  all_goals simp [drawToFull_discardPile]

theorem resolveProgress_round (o : Side) (s : CombatSM) :
    (resolveProgress o s).round = s.round := by
  unfold resolveProgress startReshuffle startEnemyTurn
  repeat' split
  all_goals rfl

theorem resolveFinish_player_hitPoints (o : Side) (s : CombatSM) :
    (resolveFinish o s).player.hitPoints = s.player.hitPoints := by
  unfold resolveFinish
  split
  · rfl
  · rw [resolveProgress_player_hitPoints]

theorem resolveFinish_player_discardPile (o : Side) (s : CombatSM) :
    (resolveFinish o s).player.discardPile = s.player.discardPile := by
  unfold resolveFinish
  split
  · rfl
  · rw [resolveProgress_player_discardPile]

theorem resolveFinish_enemy_hitPoints (o : Side) (s : CombatSM) :
    (resolveFinish o s).enemy.hitPoints = s.enemy.hitPoints := by
  unfold resolveFinish
  split
  · rfl
  · rw [resolveProgress_enemy_hitPoints]

theorem resolveFinish_enemy_discardPile (o : Side) (s : CombatSM) :
    (resolveFinish o s).enemy.discardPile = s.enemy.discardPile := by
  unfold resolveFinish
  split
  · rfl
  · rw [resolveProgress_enemy_discardPile]

theorem resolveFinish_round (o : Side) (s : CombatSM) :
    (resolveFinish o s).round = s.round := by
  unfold resolveFinish
  split
  · rfl
  · rw [resolveProgress_round]

/-! ## The countered-attack resolution (shared by C4 and C9) -/

theorem resolveApplyEffect_counter (s : CombatSM) (D V i j : Nat)
    (hcounter : s.counter = some (Card.defense V, j)) :
    resolveApplyEffect ⟨Card.attack D, i, .enemy⟩ s =
      { s with
        player :=
          { s.player with
            hitPoints := s.player.hitPoints - min ((D - V : Nat) : Int) s.player.hitPoints,
            discardPile := s.player.discardPile ++ [Card.defense V] },
        counter := none } := by
  simp [resolveApplyEffect, hcounter, sideGet, sideSet, other,
    playCardEffect, Card.defenseValueOf, Player.takeDamage]

theorem resolve_counter_spec (s : CombatSM) (D V i j : Nat)
    (hstate : s.state = CombatState.WAITING_FOR_RESOLVE ∨
      s.state = CombatState.RESOLVE_WITH_COUNTER)
    (hstaged : s.staged = some ⟨Card.attack D, i, .enemy⟩)
    (hcounter : s.counter = some (Card.defense V, j)) :
    (step .resolveStaged s).player.hitPoints
        = s.player.hitPoints - min ((D - V : Nat) : Int) s.player.hitPoints ∧
    (step .resolveStaged s).enemy.discardPile
        = s.enemy.discardPile ++ [Card.attack D] ∧
    (step .resolveStaged s).player.discardPile
        = s.player.discardPile ++ [Card.defense V] := by
  have hstep : step .resolveStaged s = resolveStagedCard s := by
    rcases hstate with h | h <;> simp [step, handleClick, h, handleResolve]
  have hres : resolveStagedCard s =
      resolveFinish .enemy
        (checkVitalSigns
          (appendDiscardOf .enemy (Card.attack D)
            (resolveApplyEffect ⟨Card.attack D, i, .enemy⟩ s))) := by
    rw [resolveStagedCard, hstaged]
  rw [hstep, hres, resolveApplyEffect_counter s D V i j hcounter]
  refine ⟨?_, ?_, ?_⟩ <;>
    simp [resolveFinish_player_hitPoints, resolveFinish_player_discardPile,
      resolveFinish_enemy_discardPile, checkVitalSigns_player,
      checkVitalSigns_enemy, appendDiscardOf, sideGet, sideSet]

/-- C4 counterexample.  The claim says a countered Attack of damage D
against defense V reduces the defender's health by exactly
`max(0, D - V)`.  At 1 HP against a countered 3-damage Attack with
defense 1 the claimed decrease is 2, but `take_damage` clamps at the
current health: the player ends at 0 HP, a decrease of 1. -/
theorem counter_math_counterexample :
    (step .resolveStaged stateC4).player.hitPoints = 0 ∧
    stateC4.player.hitPoints = 1 ∧
    (step .resolveStaged stateC4).player.hitPoints ≠
      stateC4.player.hitPoints - ((3 - 1 : Nat) : Int) := by
  decide

/-- C4 (amended).  Resolving an enemy Attack of damage D against a
counter of defense value V reduces the defender's health by
`min(max(0, D - V), health)` — the counter reduction `max(0, D - V)`
further clamped at the defender's current health by `take_damage` — and
the Attack card ends in the enemy's discard pile while the counter card
ends in the player's discard pile. -/
theorem counter_math_amended (s : CombatSM) (D V i j : Nat)
    (hstate : s.state = CombatState.WAITING_FOR_RESOLVE ∨
      s.state = CombatState.RESOLVE_WITH_COUNTER)
    (hstaged : s.staged = some ⟨Card.attack D, i, .enemy⟩)
    (hcounter : s.counter = some (Card.defense V, j)) :
    (step .resolveStaged s).player.hitPoints
        = s.player.hitPoints - min ((D - V : Nat) : Int) s.player.hitPoints ∧
    (step .resolveStaged s).enemy.discardPile
        = s.enemy.discardPile ++ [Card.attack D] ∧
    (step .resolveStaged s).player.discardPile
        = s.player.discardPile ++ [Card.defense V] :=
  resolve_counter_spec s D V i j hstate hstaged hcounter

/-- Witness for C4 at the concrete C4 scenario. -/
theorem counter_math_amended_witness :
    (stateC4.state = CombatState.WAITING_FOR_RESOLVE ∨
      stateC4.state = CombatState.RESOLVE_WITH_COUNTER) ∧
    (step .resolveStaged stateC4).player.hitPoints
        = stateC4.player.hitPoints - min ((3 - 1 : Nat) : Int) stateC4.player.hitPoints :=
  ⟨Or.inr (by decide),
    (counter_math_amended stateC4 3 1 0 0 (Or.inr (by decide)) (by decide) (by decide)).1⟩

/-- C9.  The counter reduction is applied only inside the health
computation of that one resolution: the staged Attack card's damage is
restored before the card is appended, so it enters the enemy discard
pile carrying its original damage value D, not the reduced one. -/
theorem countered_attack_damage_preserved (s : CombatSM) (D V i j : Nat)
    (hstate : s.state = CombatState.WAITING_FOR_RESOLVE ∨
      s.state = CombatState.RESOLVE_WITH_COUNTER)
    (hstaged : s.staged = some ⟨Card.attack D, i, .enemy⟩)
    (hcounter : s.counter = some (Card.defense V, j)) :
    (step .resolveStaged s).enemy.discardPile
        = s.enemy.discardPile ++ [Card.attack D] :=
  (resolve_counter_spec s D V i j hstate hstaged hcounter).2.1

/-- Witness for C9: the 3-damage Attack countered with defense 1 lands in
the enemy discard pile still carrying damage 3. -/
theorem countered_attack_damage_preserved_witness :
    stateC4.counter = some (Card.defense 1, 0) ∧
    (step .resolveStaged stateC4).enemy.discardPile
        = stateC4.enemy.discardPile ++ [Card.attack 3] :=
  ⟨by decide,
    countered_attack_damage_preserved stateC4 3 1 0 0 (Or.inr (by decide))
      (by decide) (by decide)⟩

/-- The elapse of an enemy-owned enemy-target reshuffle, as one record
equation (shared by the C5 theorems). -/
theorem reshuffle_enemy_exec (s : CombatSM) (dt : ℚ)
    (hstate : s.state = CombatState.RESHUFFLING)
    (htgt : s.reshuffleTarget = some .enemy)
    (howner : s.reshuffleOwner = some .enemy)
    (htime : reshuffleDuration ≤ s.reshuffleTimer + dt) :
    step (.advance dt) s =
      { s with
        enemy := (Player.drawCard
          { s.enemy with deck := s.enemy.discardPile, discardPile := [] }).2,
        reshuffleTimer := s.reshuffleTimer + dt,
        reshuffleTarget := none, reshuffleOwner := none,
        turn := s.turn + 1, state := .PLAYER_TURN } := by
  simp [step, update, hstate, htime, executeReshuffle, reshuffleMove, htgt, howner]

/-- C5 counterexample.  The claim says that after an enemy-owned
reshuffle the enemy draws until its hand holds 5 cards.  With six cards
reshuffled into the deck the code draws exactly one: the enemy ends with
1 card in hand and 5 still in the deck. -/
theorem reshuffle_enemy_counterexample :
    (step (.advance 2) stateC5).enemy.hand.length = 1 ∧
    (step (.advance 2) stateC5).enemy.deck.length = 5 ∧
    (step (.advance 2) stateC5).state = CombatState.PLAYER_TURN := by
  rw [reshuffle_enemy_exec stateC5 2 (by decide) (by decide) (by decide)
    (by norm_num [reshuffleDuration, stateC5, stateC3])]
  decide

/-- The elapse of an enemy-owned reshuffle with any recorded target, as
one record equation: the recorded target's discard pile moves into its
deck (`reshuffleMove`), then the enemy draws a single card. -/
theorem reshuffle_owner_enemy_exec (s : CombatSM) (dt : ℚ)
    (hstate : s.state = CombatState.RESHUFFLING)
    (howner : s.reshuffleOwner = some .enemy)
    (htime : reshuffleDuration ≤ s.reshuffleTimer + dt) :
    step (.advance dt) s =
      { s with
        player := (reshuffleMove s).player,
        enemy := (Player.drawCard (reshuffleMove s).enemy).2,
        reshuffleTimer := s.reshuffleTimer + dt,
        reshuffleTarget := none, reshuffleOwner := none,
        turn := s.turn + 1, state := .PLAYER_TURN } := by
  cases htg : s.reshuffleTarget with
  | none =>
    simp [step, update, hstate, htime, executeReshuffle, reshuffleMove, htg, howner]
  | some t =>
    cases t
    all_goals
      simp [step, update, hstate, htime, executeReshuffle, reshuffleMove, htg, howner]

/-- C5 (amended).  When the reshuffle timer elapses with recorded
`owner = enemy` and the combat still in `Reshuffling`, the recorded
target side's discard pile - whichever side it is - becomes its
(shuffled) deck and is emptied, then the enemy draws exactly ONE card
from its post-move deck (a no-op if that deck is empty) rather than
refilling to five, the player's piles see no further change, the turn
counter increments by 1, and the phase becomes `PlayerTurn`. -/
theorem reshuffle_enemy_amended (s : CombatSM) (dt : ℚ) (t : Side)
    (hstate : s.state = CombatState.RESHUFFLING)
    (htgt : s.reshuffleTarget = some t)
    (howner : s.reshuffleOwner = some .enemy)
    (htime : reshuffleDuration ≤ s.reshuffleTimer + dt) :
    (sideGet t (reshuffleMove s)).deck = (sideGet t s).discardPile ∧
    (sideGet t (reshuffleMove s)).discardPile = [] ∧
    (step (.advance dt) s).player = (reshuffleMove s).player ∧
    (step (.advance dt) s).enemy.hand
        = (reshuffleMove s).enemy.hand ++ (reshuffleMove s).enemy.deck.take 1 ∧
    (step (.advance dt) s).enemy.deck = (reshuffleMove s).enemy.deck.drop 1 ∧
    (step (.advance dt) s).enemy.discardPile
        = (reshuffleMove s).enemy.discardPile ∧
    (step (.advance dt) s).turn = s.turn + 1 ∧
    (step (.advance dt) s).state = CombatState.PLAYER_TURN := by
  rw [reshuffle_owner_enemy_exec s dt hstate howner htime]
  refine ⟨?_, ?_, rfl, ?_, ?_, ?_, rfl, rfl⟩
  · cases t <;> simp [reshuffleMove, htgt, sideGet]
  · cases t <;> simp [reshuffleMove, htgt, sideGet]
  · cases hdk : (reshuffleMove s).enemy.deck <;> simp [Player.drawCard, hdk]
  · cases hdk : (reshuffleMove s).enemy.deck <;> simp [Player.drawCard, hdk]
  · cases hdk : (reshuffleMove s).enemy.deck <;> simp [Player.drawCard, hdk]

/-- Witness for C5 at a player-target, enemy-owned reshuffle: the
player's discard pile becomes the player's deck, and the phase returns
to `PLAYER_TURN`. -/
theorem reshuffle_enemy_amended_witness :
    ({ stateC5 with reshuffleTarget := some Side.player } : CombatSM).reshuffleOwner
        = some Side.enemy ∧
    (sideGet .player (reshuffleMove
        { stateC5 with reshuffleTarget := some Side.player })).deck
      = (sideGet .player
          ({ stateC5 with reshuffleTarget := some Side.player } : CombatSM)).discardPile ∧
    (step (.advance 2)
        { stateC5 with reshuffleTarget := some Side.player }).state
      = CombatState.PLAYER_TURN :=
  ⟨by decide,
    (reshuffle_enemy_amended _ 2 .player (by decide) (by decide) (by decide)
      (by norm_num [reshuffleDuration, stateC5, stateC3])).1,
    (reshuffle_enemy_amended _ 2 .player (by decide) (by decide) (by decide)
      (by norm_num [reshuffleDuration, stateC5, stateC3])).2.2.2.2.2.2.2⟩

/-! ## Decision Engine lemmas (C6) -/

theorem bestAux_snd_mono (f : Card → ℚ) (l : List Card) :
    ∀ (i : Nat) (acc : Int × ℚ), acc.2 ≤ (bestAux f l i acc).2 := by
  induction l with
  | nil => intro i acc; simp [bestAux]
  | cons c cs ih =>
    intro i acc
    simp only [bestAux]
    split
    · next h => exact le_trans (le_of_lt h) (ih (i + 1) ((i : Int), f c))
    · exact ih (i + 1) acc

theorem bestAux_le_of_mem (f : Card → ℚ) (l : List Card) :
    ∀ (i : Nat) (acc : Int × ℚ) (c : Card), c ∈ l → f c ≤ (bestAux f l i acc).2 := by
  induction l with
  | nil => intro i acc c hc; simp at hc
  | cons a as ih =>
    intro i acc c hc
    rcases List.mem_cons.mp hc with rfl | hmem
    · simp only [bestAux]
      split
      · exact bestAux_snd_mono f as (i + 1) ((i : Int), f c)
      · next h => exact le_trans (not_lt.mp h) (bestAux_snd_mono f as (i + 1) acc)
    · simp only [bestAux]
      split <;> exact ih _ _ c hmem

theorem bestAux_attained (f : Card → ℚ) (l : List Card) :
    ∀ (i : Nat) (acc : Int × ℚ), bestAux f l i acc = acc ∨
      ∃ j c, l.get? j = some c ∧ (bestAux f l i acc).1 = (i : Int) + j ∧
        (bestAux f l i acc).2 = f c := by
  induction l with
  | nil => intro i acc; left; rfl
  | cons a as ih =>
    intro i acc
    simp only [bestAux]
    split
    · rcases ih (i + 1) ((i : Int), f a) with h | ⟨j, c, hj, h1, h2⟩
      · right
        refine ⟨0, a, rfl, ?_, ?_⟩ <;> simp [h]
      · right
        refine ⟨j + 1, c, by simpa using hj, ?_, h2⟩
        rw [h1]; push_cast; ring
    · rcases ih (i + 1) acc with h | ⟨j, c, hj, h1, h2⟩
      · left; exact h
      · right
        refine ⟨j + 1, c, by simpa using hj, ?_, h2⟩
        rw [h1]; push_cast; ring

/-- A lethal Attack always scores at least 100: the persona multiplier is
applied before the +100 lethal bonus and the base damage is nonnegative. -/
theorem utility_lethal_ge (persona : String) (d : Nat) (shp smax ohp : Int)
    (h : ohp ≤ (d : Int)) :
    (100 : ℚ) ≤ utility persona (.attack d) shp smax ohp := by
  have hd : (0 : ℚ) ≤ (d : ℚ) := Nat.cast_nonneg d
  simp only [utility]
  rw [if_pos h]
  repeat' split
  all_goals nlinarith [hd]

/-- Over the registered card catalog, every candidate that is not a
lethal Attack scores at most 9 (max heal score 2 x 3.0 x 1.5). -/
theorem utility_catalog_nonlethal_le (persona : String) (c : Card)
    (shp smax ohp : Int) (hc : c ∈ catalog)
    (hnl : ∀ e : Nat, c = .attack e → ¬ ohp ≤ (e : Int)) :
    utility persona c shp smax ohp ≤ 9 := by
  simp only [catalog, List.mem_cons, List.not_mem_nil, or_false] at hc
  rcases hc with rfl | rfl | rfl | rfl
  · have h := hnl 3 rfl
    simp only [utility]
    rw [if_neg h]
    repeat' split
    all_goals norm_num
  · have h := hnl 2 rfl
    simp only [utility]
    rw [if_neg h]
    repeat' split
    all_goals norm_num
  · have h := hnl 1 rfl
    simp only [utility]
    rw [if_neg h]
    repeat' split
    all_goals norm_num
  · simp only [utility]
    repeat' split
    all_goals norm_num

/-- C6 counterexample.  The claim quantifies over every enemy hand; with
a Heal card of amount 1000 in hand at low health, the panic-heal score
(1000 x 3.0 = 3000) beats the lethal Attack's score (1 + 100 = 101), so
the Decision Engine selects the Heal, not the lethal Attack. -/
theorem lethal_priority_counterexample :
    enemyChoice "balanced" [Card.attack 1, Card.heal 1000] 1 10 1 = some 1 ∧
    [Card.attack 1, Card.heal 1000].get? 1 = some (Card.heal 1000) ∧
    [Card.attack 1, Card.heal 1000].get? 0 = some (Card.attack 1) ∧
    (1 : Int) ≤ ((1 : Nat) : Int) := by
  refine ⟨?_, by decide, by decide, by decide⟩
  have e1 : ("balanced" : String) ≠ "aggressive" := by decide
  have e2 : ("balanced" : String) ≠ "timid" := by decide
  norm_num [enemyChoice, bestCard, bestAux, utility, e1, e2]
  decide

/-- C6 (amended).  Restricted to hands drawn from the game's registered
cards (Attacks of damage 1, 2, 3 and Heals of amount 2 — the only cards
any reachable deck contains), the lethal priority holds: whenever the
hand contains an Attack whose damage is at least the opponent's current
health, the Decision Engine selects some such Attack (never a Heal or
Defense card and never the discard fallback), regardless of persona. -/
theorem lethal_priority_amended (persona : String) (hand : List Card)
    (shp smax ohp : Int) (hcat : ∀ c ∈ hand, c ∈ catalog) (_hsm : 0 < smax)
    (i d : Nat) (hi : hand.get? i = some (.attack d)) (hleth : ohp ≤ (d : Int)) :
    ∃ j e, enemyChoice persona hand shp smax ohp = some j ∧
      hand.get? j = some (Card.attack e) ∧ ohp ≤ (e : Int) := by
  set f := fun c => utility persona c shp smax ohp with hf
  have hmem : Card.attack d ∈ hand := List.get?_mem hi
  have hne : hand ≠ [] := by rintro rfl; simp at hi
  have h100 : (100 : ℚ) ≤ (bestCard f hand).2 :=
    le_trans (utility_lethal_ge persona d shp smax ohp hleth)
      (bestAux_le_of_mem f hand 0 (-1, -1) _ hmem)
  have hpos : (0 : ℚ) < (bestCard f hand).2 := lt_of_lt_of_le (by norm_num) h100
  rcases bestAux_attained f hand 0 (-1, -1) with hacc | ⟨j, c, hj, h1, h2⟩
  · rw [bestCard, hacc] at h100
    norm_num at h100
  · have hcm : c ∈ hand := List.get?_mem hj
    have hlethc : ∃ e : Nat, c = Card.attack e ∧ ohp ≤ (e : Int) := by
      by_contra hno
      push_neg at hno
      have hle := utility_catalog_nonlethal_le persona c shp smax ohp (hcat c hcm)
        (fun e he => not_le.mpr (hno e he))
      rw [bestCard] at h100
      rw [h2] at h100
      simp only [hf] at h100
      linarith
    obtain ⟨e, rfl, he⟩ := hlethc
    refine ⟨j, e, ?_, hj, he⟩
    simp only [enemyChoice, if_neg hne]
    rw [if_pos hpos]
    have : (bestCard f hand).1 = (0 : Int) + j := h1
    rw [this]
    simp

/-- Witness for C6 on a catalog hand holding a lethal Attack. -/
theorem lethal_priority_amended_witness :
    (∀ c ∈ [Card.attack 1], c ∈ catalog) ∧
    (∃ j e, enemyChoice "balanced" [Card.attack 1] 5 10 1 = some j ∧
      [Card.attack 1].get? j = some (Card.attack e) ∧ (1 : Int) ≤ (e : Int)) :=
  ⟨by decide,
    lethal_priority_amended "balanced" [Card.attack 1] 5 10 1 (by decide)
      (by decide) 0 1 (by decide) (by decide)⟩

/-! ## Discard-fallback traces (C7, C10) -/

/-- Think-timer elapse with an empty enemy hand: `_execute_enemy_action`
returns to `PLAYER_TURN` immediately, with no discard, no draw and no
turn increment. -/
theorem think_empty_exec (s : CombatSM) (d1 : ℚ)
    (hstate : s.state = CombatState.ENEMY_THINKING)
    (hhand : s.enemy.hand = [])
    (ht1 : enemyThinkDuration ≤ s.thinkTimer + d1) :
    step (.advance d1) s =
      { s with thinkTimer := s.thinkTimer + d1, state := .PLAYER_TURN } := by
  simp only [step, update, hstate]
  simp [executeEnemyAction, ht1, hhand]

/-- Think-timer elapse choosing the discard fallback (nonempty hand,
best score ≤ 0): hand index 0 moves to the `enemy_discarding_card` slot
and a 0.5 s animation starts. -/
theorem discard_fallback_exec (s : CombatSM) (d1 : ℚ) (c : Card) (rest : List Card)
    (hstate : s.state = CombatState.ENEMY_THINKING)
    (hhand : s.enemy.hand = c :: rest)
    (hscore : (bestCard (fun k => utility s.persona k s.enemy.hitPoints
      s.enemy.maxHitPoints s.player.hitPoints) s.enemy.hand).2 ≤ 0)
    (ht1 : enemyThinkDuration ≤ s.thinkTimer + d1) :
    step (.advance d1) s =
      { s with enemy := { s.enemy with hand := rest },
               anims := s.anims ++ [⟨0, 1 / 2⟩],
               discarding := some c,
               thinkTimer := s.thinkTimer + d1,
               state := .ENEMY_DISCARD_ANIMATING } := by
  rw [hhand] at hscore
  have hnlt := not_lt.mpr hscore
  simp only [step, update, hstate]
  simp [executeEnemyAction, ht1, hhand, hnlt, startEnemyDiscardAnimation]

/-- Completion of the enemy discard animation: the tracked card joins
the enemy discard pile, one replacement is drawn, the turn increments
and play returns to `PLAYER_TURN`. -/
theorem eda_complete_exec (s : CombatSM) (d2 : ℚ)
    (hstate : s.state = CombatState.ENEMY_DISCARD_ANIMATING)
    (hanims : s.anims = [⟨0, 1 / 2⟩])
    (ht2 : 1 / 2 ≤ d2) :
    step (.advance d2) s =
      { s with
        enemy := (Player.drawCard
          { s.enemy with
            discardPile := s.enemy.discardPile ++ s.discarding.toList }).2,
        anims := [],
        discarding := none,
        turn := s.turn + 1,
        state := .PLAYER_TURN } := by
  have hdone : ¬((0 : ℚ) + d2 < 1 / 2) := by push_neg; linarith
  simp only [step, update, hstate]
  simp [updateAnimations, advanceAnims, hanims, hdone, animationComplete, hstate]
  rw [if_pos (show (2 : ℚ)⁻¹ ≤ d2 by linarith)]
  have hlt : ¬ d2 < (2 : ℚ)⁻¹ := by linarith
  simp [List.filter, hlt]

/-- A time advance in `PLAYER_TURN` is a no-op. -/
theorem player_turn_advance_noop (s : CombatSM) (d : ℚ)
    (hstate : s.state = CombatState.PLAYER_TURN) :
    step (.advance d) s = s := by
  simp [step, update, hstate]

/-- C7 counterexample.  The claim says that whenever the think timer
elapses with an empty enemy hand, the discard fallback runs: a card
moves to the enemy discard pile, a replacement is drawn and the turn
increments.  With an empty hand the engine instead jumps straight to
`PLAYER_TURN`: no card moves, nothing is drawn, the turn stays at 1. -/
theorem discard_fallback_counterexample :
    (run [.advance (3 / 2), .advance (1 / 2)] stateC7).turn = 1 ∧
    (run [.advance (3 / 2), .advance (1 / 2)] stateC7).enemy.discardPile = [] ∧
    (run [.advance (3 / 2), .advance (1 / 2)] stateC7).enemy.deck.length = 1 ∧
    (run [.advance (3 / 2), .advance (1 / 2)] stateC7).state
        = CombatState.PLAYER_TURN := by
  have h1 : step (.advance (3 / 2)) stateC7 =
      { stateC7 with thinkTimer := stateC7.thinkTimer + 3 / 2,
                     state := .PLAYER_TURN } :=
    think_empty_exec stateC7 (3 / 2) (by decide) (by decide)
      (by norm_num [enemyThinkDuration, stateC7, stateC3])
  have h2 : run [.advance (3 / 2), .advance (1 / 2)] stateC7 =
      { stateC7 with thinkTimer := stateC7.thinkTimer + 3 / 2,
                     state := .PLAYER_TURN } := by
    show step (.advance (1 / 2)) (step (.advance (3 / 2)) stateC7) = _
    rw [h1, player_turn_advance_noop _ _ rfl]
  rw [h2]
  decide

/-- C7 (amended).  When the enemy-think timer elapses: if the hand is
nonempty and the best utility score is ≤ 0, the discard fallback runs —
hand index 0 (the oldest-held card) moves to the enemy discard pile with
no game effect, one replacement card is drawn (if the deck is nonempty),
the turn counter increments, and the phase returns to `PlayerTurn`; if
instead the hand is empty, the engine returns directly to `PlayerTurn`
with no discard, no draw, and no change to the turn counter. -/
theorem discard_fallback_amended (s : CombatSM) (d1 d2 : ℚ)
    (hstate : s.state = CombatState.ENEMY_THINKING)
    (hanims : s.anims = [])
    (ht1 : enemyThinkDuration ≤ s.thinkTimer + d1)
    (ht2 : 1 / 2 ≤ d2) :
    (s.enemy.hand = [] →
      (run [.advance d1, .advance d2] s).state = CombatState.PLAYER_TURN ∧
      (run [.advance d1, .advance d2] s).turn = s.turn ∧
      (run [.advance d1, .advance d2] s).enemy = s.enemy) ∧
    (∀ c rest, s.enemy.hand = c :: rest →
      (bestCard (fun k => utility s.persona k s.enemy.hitPoints
        s.enemy.maxHitPoints s.player.hitPoints) s.enemy.hand).2 ≤ 0 →
      (run [.advance d1, .advance d2] s).enemy.discardPile
          = s.enemy.discardPile ++ [c] ∧
      (run [.advance d1, .advance d2] s).enemy.hand
          = rest ++ s.enemy.deck.take 1 ∧
      (run [.advance d1, .advance d2] s).enemy.deck = s.enemy.deck.drop 1 ∧
      (run [.advance d1, .advance d2] s).turn = s.turn + 1 ∧
      (run [.advance d1, .advance d2] s).state = CombatState.PLAYER_TURN) := by
  constructor
  · intro hhand
    have h1 := think_empty_exec s d1 hstate hhand ht1
    have h2 : run [.advance d1, .advance d2] s =
        { s with thinkTimer := s.thinkTimer + d1, state := .PLAYER_TURN } := by
      show step (.advance d2) (step (.advance d1) s) = _
      rw [h1, player_turn_advance_noop _ _ rfl]
    rw [h2]
    exact ⟨rfl, rfl, rfl⟩
  · intro c rest hhand hscore
    have h1 := discard_fallback_exec s d1 c rest hstate hhand hscore ht1
    have h2 : run [.advance d1, .advance d2] s =
        step (.advance d2) (step (.advance d1) s) := rfl
    rw [h2, h1]
    rw [eda_complete_exec _ d2 rfl (by rw [hanims]; rfl) ht2]
    cases hdk : s.enemy.deck <;> simp [Player.drawCard, hdk]

/-- Witness helper: with only Heal cards in hand at full health, every
utility score is 0, so the best score is ≤ 0. -/
theorem stateC10_score :
    (bestCard (fun k => utility stateC10.persona k stateC10.enemy.hitPoints
      stateC10.enemy.maxHitPoints stateC10.player.hitPoints)
      stateC10.enemy.hand).2 ≤ 0 := by
  have e1 : ("balanced" : String) ≠ "aggressive" := by decide
  have e2 : ("balanced" : String) ≠ "timid" := by decide
  norm_num [stateC10, stateC3, bestCard, bestAux, utility, e1, e2]

/-- Witness for C7 on the concrete all-heal scenario. -/
theorem discard_fallback_amended_witness :
    stateC10.state = CombatState.ENEMY_THINKING ∧
    (run [.advance (3 / 2), .advance (1 / 2)] stateC10).enemy.discardPile
        = stateC10.enemy.discardPile ++ [Card.heal 2] ∧
    (run [.advance (3 / 2), .advance (1 / 2)] stateC10).turn
        = stateC10.turn + 1 :=
  have h := (discard_fallback_amended stateC10 (3 / 2) (1 / 2) (by decide)
    (by decide) (by norm_num [enemyThinkDuration, stateC10, stateC3])
    (by norm_num)).2 (Card.heal 2) [Card.heal 3] (by decide) stateC10_score
  ⟨by decide, h.1, h.2.2.2.1⟩

/-- C10.  The enemy discard fallback, from the start of the discard
animation through its completion, leaves the player's entire state, both
combatants' hit points, and the staged and counter slots unchanged; it
mutates only the enemy's hand, deck and discard pile and increments the
turn counter once, at completion. -/
theorem discard_fallback_frame (s : CombatSM) (d1 d2 : ℚ) (c : Card)
    (rest : List Card)
    (hstate : s.state = CombatState.ENEMY_THINKING)
    (hanims : s.anims = [])
    (hhand : s.enemy.hand = c :: rest)
    (hscore : (bestCard (fun k => utility s.persona k s.enemy.hitPoints
      s.enemy.maxHitPoints s.player.hitPoints) s.enemy.hand).2 ≤ 0)
    (ht1 : enemyThinkDuration ≤ s.thinkTimer + d1)
    (ht2 : 1 / 2 ≤ d2) :
    (step (.advance d1) s).player = s.player ∧
    (step (.advance d1) s).enemy.hitPoints = s.enemy.hitPoints ∧
    (step (.advance d1) s).staged = s.staged ∧
    (step (.advance d1) s).counter = s.counter ∧
    (step (.advance d1) s).turn = s.turn ∧
    (run [.advance d1, .advance d2] s).player = s.player ∧
    (run [.advance d1, .advance d2] s).enemy.hitPoints = s.enemy.hitPoints ∧
    (run [.advance d1, .advance d2] s).enemy.maxHitPoints = s.enemy.maxHitPoints ∧
    (run [.advance d1, .advance d2] s).staged = s.staged ∧
    (run [.advance d1, .advance d2] s).counter = s.counter ∧
    (run [.advance d1, .advance d2] s).turn = s.turn + 1 := by
  have h1 := discard_fallback_exec s d1 c rest hstate hhand hscore ht1
  have h2 : run [.advance d1, .advance d2] s =
      step (.advance d2) (step (.advance d1) s) := rfl
  rw [h2, h1, eda_complete_exec _ d2 rfl (by rw [hanims]; rfl) ht2]
  refine ⟨rfl, rfl, rfl, rfl, rfl, rfl, ?_, ?_, rfl, rfl, rfl⟩ <;>
    simp [drawCard_hitPoints, drawCard_maxHitPoints]

/-- Witness for C10 on the concrete all-heal scenario. -/
theorem discard_fallback_frame_witness :
    stateC10.enemy.hand = Card.heal 2 :: [Card.heal 3] ∧
    (run [.advance (3 / 2), .advance (1 / 2)] stateC10).player
        = stateC10.player :=
  have h := discard_fallback_frame stateC10 (3 / 2) (1 / 2) (Card.heal 2)
    [Card.heal 3] (by decide) (by decide) (by decide) stateC10_score
    (by norm_num [enemyThinkDuration, stateC10, stateC3]) (by norm_num)
  ⟨by decide, h.2.2.2.2.2.1⟩

/-! ## Counting infrastructure for card conservation (C2) -/

theorem drawCard_count (p : Player) :
    ((p.drawCard).2).hand.length + ((p.drawCard).2).deck.length
      = p.hand.length + p.deck.length := by
  unfold Player.drawCard
  cases hdk : p.deck with
  | nil => simp [hdk]
  | cons c rest => simp [hdk]; omega

theorem drawLoop_count (fuel : Nat) (p : Player) :
    (Player.drawLoop fuel p).hand.length + (Player.drawLoop fuel p).deck.length
      = p.hand.length + p.deck.length := by
  induction fuel generalizing p with
  | zero => rfl
  | succ n ih =>
    unfold Player.drawLoop
    split
    · cases hdk : p.deck with
      | nil => simp [hdk]
      | cons c rest =>
        rw [ih]; simp; omega
    · rfl

theorem drawToFull_count (p : Player) :
    (p.drawToFull).hand.length + (p.drawToFull).deck.length
      = p.hand.length + p.deck.length := drawLoop_count _ _

theorem pyInsert_length (n : Nat) (c : Card) (l : List Card) :
    (pyInsert n c l).length = l.length + 1 := by
  simp [pyInsert]
  omega

theorem eraseIdx_length_of_get? {l : List Card} {i : Nat} {c : Card}
    (h : l.get? i = some c) : (l.eraseIdx i).length + 1 = l.length := by
  have hi : i < l.length := by
    by_contra hge
    rw [List.get?_eq_none.mpr (Nat.le_of_not_lt hge)] at h
    exact Option.noConfusion h
  exact List.length_eraseIdx_add_one hi

theorem discardLoop_count (idxs : List Nat) :
    ∀ (sel : List Bool) (h d : List Card),
      (discardLoop idxs sel h d).1.length + (discardLoop idxs sel h d).2.length
        = h.length + d.length := by
  induction idxs with
  | nil => intro sel h d; rfl
  | cons i rest ih =>
    intro sel h d
    unfold discardLoop
    split
    · cases hget : h.get? i with
      | none => exact ih sel h d
      | some c =>
        rw [ih]
        have := eraseIdx_length_of_get? hget
        simp
        omega
    · exact ih sel h d

/-! ## Per-operation conservation of the adjusted sum (C2) -/

theorem adjSum_startEnemyTurn (s : CombatSM) (hterm : isTerminal s = false)
    (sd : Side) : adjSum sd (startEnemyTurn s) = adjSum sd s := by
  cases sd <;>
    simp [startEnemyTurn, adjSum, stagedCount, counterCount, returningCount,
      discardingCount, isTerminal, sideGet, hterm] <;>
    simp_all [isTerminal]

theorem adjSum_startReshuffle (t o : Side) (s : CombatSM)
    (hterm : isTerminal s = false) (sd : Side) :
    adjSum sd (startReshuffle t o s) = adjSum sd s := by
  cases sd <;>
    simp [startReshuffle, adjSum, stagedCount, counterCount, returningCount,
      discardingCount, isTerminal, sideGet, hterm] <;>
    simp_all [isTerminal]

theorem adjSum_startCardAnimation (i : Nat) (o : Side) (s : CombatSM)
    (hstaged : s.staged = none) (hterm : isTerminal s = false) (sd : Side) :
    adjSum sd (startCardAnimation i o s) = adjSum sd s := by
  unfold startCardAnimation
  cases hget : (sideGet o s).hand.get? i with
  | none => rfl
  | some c =>
    have hlen := eraseIdx_length_of_get? hget
    cases o <;> cases sd <;>
      simp_all [adjSum, stagedCount, counterCount, returningCount,
        discardingCount, isTerminal, sideGet, sideSet] <;>
      omega

theorem adjSum_cancelStagedCard (s : CombatSM) (st : Staged)
    (hst : s.staged = some st) (howner : st.owner = .player)
    (hret : s.returning = none) (hterm : isTerminal s = false) (sd : Side) :
    adjSum sd (cancelStagedCard s) = adjSum sd s := by
  unfold cancelStagedCard
  rw [hst]
  cases sd
  all_goals simp_all [adjSum, stagedCount, counterCount, returningCount,
    discardingCount, isTerminal, sideGet]
  all_goals omega

theorem adjSum_startEnemyDiscardAnimation (i : Nat) (s : CombatSM)
    (hdisc : s.discarding = none) (hstaged : s.staged = none)
    (hterm : isTerminal s = false) (sd : Side) :
    adjSum sd (startEnemyDiscardAnimation i s) = adjSum sd s := by
  unfold startEnemyDiscardAnimation
  cases hget : s.enemy.hand.get? i with
  | none => rfl
  | some c =>
    have hlen := eraseIdx_length_of_get? hget
    cases sd
    all_goals simp_all [adjSum, stagedCount, counterCount, returningCount,
      discardingCount, isTerminal, sideGet]
    all_goals omega

theorem adjSum_startCounterAnimation (i : Nat) (s : CombatSM)
    (hcounter : s.counter = none) (hterm : isTerminal s = false) (sd : Side) :
    adjSum sd (startCounterAnimation i s) = adjSum sd s := by
  cases hget : s.player.hand.get? i with
  | none =>
    have hg2 : s.player.hand[i]? = (none : Option Card) := by
      rw [← List.get?_eq_getElem?]; exact hget
    simp [startCounterAnimation, hg2]
  | some c =>
    have hlen := eraseIdx_length_of_get? hget
    cases hdef : c.isDefense
    · simp_all [startCounterAnimation]
    · cases sd
      all_goals simp_all [startCounterAnimation, adjSum, stagedCount,
        counterCount, returningCount, discardingCount, isTerminal, sideGet]
      all_goals omega

theorem resolveApplyEffect_staged (st : Staged) (s : CombatSM) :
    (resolveApplyEffect st s).staged = s.staged := by
  unfold resolveApplyEffect playCardEffect
  repeat' split
  all_goals cases st.owner
  all_goals simp [sideSet, sideGet, other, Player.takeDamage, Player.heal]

theorem resolveApplyEffect_state (st : Staged) (s : CombatSM) :
    (resolveApplyEffect st s).state = s.state := by
  unfold resolveApplyEffect playCardEffect
  repeat' split
  all_goals cases st.owner
  all_goals simp [sideSet, sideGet, other, Player.takeDamage, Player.heal]

theorem resolveApplyEffect_round (st : Staged) (s : CombatSM) :
    (resolveApplyEffect st s).round = s.round := by
  unfold resolveApplyEffect playCardEffect
  repeat' split
  all_goals cases st.owner
  all_goals simp [sideSet, sideGet, other, Player.takeDamage, Player.heal]

theorem appendDiscardOf_staged (o : Side) (c : Card) (s : CombatSM) :
    (appendDiscardOf o c s).staged = s.staged := by
  cases o <;> simp [appendDiscardOf, sideGet, sideSet]

theorem appendDiscardOf_state (o : Side) (c : Card) (s : CombatSM) :
    (appendDiscardOf o c s).state = s.state := by
  cases o <;> simp [appendDiscardOf, sideGet, sideSet]

theorem appendDiscardOf_round (o : Side) (c : Card) (s : CombatSM) :
    (appendDiscardOf o c s).round = s.round := by
  cases o <;> simp [appendDiscardOf, sideGet, sideSet]

theorem adjSum_resolveApplyEffect (st : Staged) (s : CombatSM) (sd : Side) :
    adjSum sd (resolveApplyEffect st s) = adjSum sd s := by
  unfold resolveApplyEffect playCardEffect
  repeat' split
  all_goals cases how : st.owner
  all_goals cases sd
  all_goals simp_all [adjSum, stagedCount, counterCount, returningCount,
    discardingCount, isTerminal, sideGet, sideSet, other, Player.takeDamage,
    Player.heal]
  all_goals omega

theorem adjSum_appendDiscardOf (o : Side) (c : Card) (s : CombatSM) (sd : Side) :
    adjSum sd (appendDiscardOf o c s) = adjSum sd s + (if o = sd then 1 else 0) := by
  cases o <;> cases sd
  all_goals simp [appendDiscardOf, adjSum, sideGet, sideSet, stagedCount,
    counterCount, returningCount, discardingCount, isTerminal]
  all_goals omega

theorem adjSum_resolveProgress (o : Side) (s6 : CombatSM)
    (hterm : isTerminal s6 = false) (sd : Side) :
    adjSum sd (resolveProgress o s6) = adjSum sd s6 := by
  unfold resolveProgress
  repeat' split
  · exact adjSum_startReshuffle .player o s6 hterm sd
  · exact adjSum_startReshuffle .enemy o s6 hterm sd
  · rfl
  · exact adjSum_startEnemyTurn s6 hterm sd
  · cases sd
    all_goals simp_all [adjSum, stagedCount, counterCount, returningCount,
      discardingCount, isTerminal, sideGet, drawToFull_count,
      drawToFull_discardPile]

theorem adjSum_resolveTail (o : Side) (s4 : CombatSM) (st : Staged)
    (hst : s4.staged = some st) (how : st.owner = o)
    (hterm : isTerminal s4 = false) (sd : Side) :
    adjSum sd (resolveFinish o (checkVitalSigns s4)) + (if o = sd then 1 else 0)
      = adjSum sd s4 := by
  unfold resolveFinish
  split
  · next hT =>
    have hT' : isTerminal (checkVitalSigns s4) = true := by
      rcases hT with h | h <;> simp [isTerminal, h]
    cases o <;> cases sd
    all_goals simp_all [adjSum, stagedCount, counterCount, returningCount,
      discardingCount, sideGet, checkVitalSigns_player, checkVitalSigns_enemy,
      checkVitalSigns_counter, checkVitalSigns_returning,
      checkVitalSigns_discarding, hst, how, hterm]
    all_goals omega
  · next hT =>
    have hT' : isTerminal (checkVitalSigns s4) = false := by
      simp [isTerminal]
      constructor <;> (intro hx; exact hT (by simp [hx]))
    have hT6 : isTerminal { checkVitalSigns s4 with staged := none } = false := by
      simpa [isTerminal] using hT'
    rw [adjSum_resolveProgress o _ hT6 sd]
    cases o <;> cases sd
    all_goals simp_all [adjSum, stagedCount, counterCount, returningCount,
      discardingCount, sideGet, checkVitalSigns_player, checkVitalSigns_enemy,
      checkVitalSigns_counter, checkVitalSigns_returning,
      checkVitalSigns_discarding, hst, how, hterm]
    all_goals omega

theorem adjSum_resolveStagedCard (s : CombatSM)
    (hstate : s.state = CombatState.WAITING_FOR_RESOLVE ∨
      s.state = CombatState.RESOLVE_WITH_COUNTER) (sd : Side) :
    adjSum sd (resolveStagedCard s) = adjSum sd s := by
  have hterm : isTerminal s = false := by
    rcases hstate with h | h <;> simp [isTerminal, h]
  cases hst : s.staged with
  | none => rw [resolveStagedCard, hst]
  | some st =>
    have hres : resolveStagedCard s =
        resolveFinish st.owner
          (checkVitalSigns
            (appendDiscardOf st.owner st.card (resolveApplyEffect st s))) := by
      rw [resolveStagedCard, hst]
    rw [hres]
    have h1staged : (resolveApplyEffect st s).staged = some st := by
      rw [resolveApplyEffect_staged, hst]
    have h4staged :
        (appendDiscardOf st.owner st.card (resolveApplyEffect st s)).staged
          = some st := by
      rw [appendDiscardOf_staged, h1staged]
    have h4term :
        isTerminal (appendDiscardOf st.owner st.card (resolveApplyEffect st s))
          = false := by
      rcases hstate with h | h <;>
        simp [isTerminal, appendDiscardOf_state, resolveApplyEffect_state, h]
    have htail := adjSum_resolveTail st.owner _ st h4staged rfl h4term sd
    have happ := adjSum_appendDiscardOf st.owner st.card (resolveApplyEffect st s) sd
    have heff := adjSum_resolveApplyEffect st s sd
    omega

theorem adjSum_animationComplete (s : CombatSM) (sd : Side) :
    adjSum sd (animationComplete s) = adjSum sd s := by
  unfold animationComplete
  split
  · -- PLAYER_CARD_ANIMATING
    cases hr : s.returning with
    | some rc =>
      cases sd
      all_goals simp_all [adjSum, stagedCount, counterCount, returningCount,
        discardingCount, isTerminal, sideGet, pyInsert_length]
      all_goals omega
    | none =>
      cases sd
      all_goals simp_all [adjSum, stagedCount, counterCount, returningCount,
        discardingCount, isTerminal, sideGet]
  · -- ENEMY_CARD_ANIMATING
    split
    all_goals cases sd
    all_goals simp_all [adjSum, stagedCount, counterCount, returningCount,
      discardingCount, isTerminal, sideGet]
  · -- ENEMY_DISCARD_ANIMATING
    have hc := drawCard_count
      { s.enemy with discardPile := s.enemy.discardPile ++ s.discarding.toList }
    have hdp := drawCard_discardPile
      { s.enemy with discardPile := s.enemy.discardPile ++ s.discarding.toList }
    cases sd with
    | player =>
      simp_all [adjSum, stagedCount, counterCount, returningCount,
        discardingCount, isTerminal, sideGet]
    | enemy =>
      cases hd : s.discarding
      all_goals simp_all [adjSum, stagedCount, counterCount, returningCount,
        discardingCount, isTerminal, sideGet, Option.toList]
      all_goals omega
  · -- COUNTER_ANIMATING
    cases sd
    all_goals simp_all [adjSum, stagedCount, counterCount, returningCount,
      discardingCount, isTerminal, sideGet]
  · rfl

theorem adjSum_updateAnimations (dt : ℚ) (s : CombatSM) (sd : Side) :
    adjSum sd (updateAnimations dt s) = adjSum sd s := by
  unfold updateAnimations
  split
  · rw [adjSum_animationComplete]
    cases sd
    all_goals simp [adjSum, stagedCount, counterCount, returningCount,
      discardingCount, isTerminal, sideGet]
  · cases sd
    all_goals simp [adjSum, stagedCount, counterCount, returningCount,
      discardingCount, isTerminal, sideGet]

theorem adjSum_executeEnemyAction (s : CombatSM)
    (hstate : s.state = CombatState.ENEMY_THINKING)
    (hstaged : s.staged = none) (hdisc : s.discarding = none) (sd : Side) :
    adjSum sd (executeEnemyAction s) = adjSum sd s := by
  have hterm : isTerminal s = false := by simp [isTerminal, hstate]
  unfold executeEnemyAction
  split
  · cases sd
    all_goals simp_all [adjSum, stagedCount, counterCount, returningCount,
      discardingCount, isTerminal, sideGet]
  · split
    · exact adjSum_startCardAnimation _ .enemy s hstaged hterm sd
    · exact adjSum_startEnemyDiscardAnimation 0 s hdisc hstaged hterm sd

theorem adjSum_reshuffleMove (s : CombatSM)
    (hrs : ∃ t, s.reshuffleTarget = some t ∧ (sideGet t s).deck = [])
    (sd : Side) :
    adjSum sd (reshuffleMove s) = adjSum sd s := by
  obtain ⟨t, htgt, hdeck⟩ := hrs
  cases t
  all_goals cases sd
  all_goals simp_all [reshuffleMove, adjSum, stagedCount, counterCount,
    returningCount, discardingCount, isTerminal, sideGet]

theorem reshuffleMove_state (s : CombatSM) :
    (reshuffleMove s).state = s.state := by
  unfold reshuffleMove
  repeat' split
  all_goals rfl

theorem adjSum_executeReshuffle (s : CombatSM)
    (hstate : s.state = CombatState.RESHUFFLING)
    (hrs : ∃ t, s.reshuffleTarget = some t ∧ (sideGet t s).deck = [])
    (sd : Side) :
    adjSum sd (executeReshuffle s) = adjSum sd s := by
  have hmv := adjSum_reshuffleMove s hrs
  have hmvst := reshuffleMove_state s
  unfold executeReshuffle
  rw [if_neg (by simp [hstate])]
  have hclr : ∀ sd2, adjSum sd2
      { reshuffleMove s with reshuffleTarget := none, reshuffleOwner := none }
        = adjSum sd2 (reshuffleMove s) := by
    intro sd2
    cases sd2 <;> simp [adjSum, stagedCount, counterCount, returningCount,
      discardingCount, isTerminal, sideGet]
  rcases ho : s.reshuffleOwner with _ | o
  · have hc := drawCard_count (reshuffleMove s).enemy
    have hdp := drawCard_discardPile (reshuffleMove s).enemy
    have hmvp := hmv sd
    cases sd
    all_goals simp_all [adjSum, stagedCount, counterCount, returningCount,
      discardingCount, isTerminal, sideGet, hmvst, hstate]
  · cases o with
    | player =>
      rw [adjSum_startEnemyTurn _ (by simp [isTerminal, hmvst, hstate]) sd,
        hclr]
      exact hmv sd
    | enemy =>
      have hc := drawCard_count (reshuffleMove s).enemy
      have hdp := drawCard_discardPile (reshuffleMove s).enemy
      have hmvp := hmv sd
      cases sd
      all_goals simp_all [adjSum, stagedCount, counterCount, returningCount,
        discardingCount, isTerminal, sideGet, hmvst, hstate]

theorem adjSum_handlePlayerTurn (op : Op) (s : CombatSM)
    (hstate : s.state = CombatState.PLAYER_TURN)
    (hstaged : s.staged = none) (sd : Side) :
    adjSum sd (handlePlayerTurn op s) = adjSum sd s := by
  have hterm : isTerminal s = false := by simp [isTerminal, hstate]
  cases op with
  | debugWin =>
    simp only [handlePlayerTurn]
    split
    · cases sd
      all_goals simp_all [debugAutoWin, adjSum, stagedCount, counterCount,
        returningCount, discardingCount, isTerminal, sideGet]
    · rfl
  | debugLose =>
    simp only [handlePlayerTurn]
    split
    · cases sd
      all_goals simp_all [debugAutoLose, adjSum, stagedCount, counterCount,
        returningCount, discardingCount, isTerminal, sideGet]
    · rfl
  | draw =>
    simp only [handlePlayerTurn]
    split
    · have hc := drawCard_count s.player
      have hdp := drawCard_discardPile s.player
      cases sd
      all_goals simp_all [adjSum, stagedCount, counterCount, returningCount,
        discardingCount, isTerminal, sideGet]
    · rfl
  | pass =>
    simp only [handlePlayerTurn]
    split
    · cases sd
      all_goals simp_all [adjSum, stagedCount, counterCount, returningCount,
        discardingCount, isTerminal, sideGet]
    · exact adjSum_startEnemyTurn s hterm sd
  | beginDiscard =>
    simp only [handlePlayerTurn]
    split
    · cases sd
      all_goals simp_all [startDiscardSelect, adjSum, stagedCount,
        counterCount, returningCount, discardingCount, isTerminal, sideGet]
    · rfl
  | playCard i =>
    simp only [handlePlayerTurn]
    cases hget : s.player.hand.get? i with
    | none => rfl
    | some c =>
      simp only [hget]
      split
      · split
        · exact adjSum_startCardAnimation i .player s hstaged hterm sd
        · rfl
      · split
        · exact adjSum_startCardAnimation i .player s hstaged hterm sd
        · rfl
  | _ => rfl

theorem adjSum_handleDiscard (op : Op) (s : CombatSM)
    (hstate : s.state = CombatState.PLAYER_DISCARDING) (sd : Side) :
    adjSum sd (handleDiscard op s) = adjSum sd s := by
  have hterm : isTerminal s = false := by simp [isTerminal, hstate]
  cases op with
  | cancelDiscard =>
    cases sd
    all_goals simp_all [handleDiscard, adjSum, stagedCount, counterCount,
      returningCount, discardingCount, isTerminal, sideGet]
  | toggleDiscard i =>
    simp only [handleDiscard]
    split
    · cases sd
      all_goals simp_all [adjSum, stagedCount, counterCount, returningCount,
        discardingCount, isTerminal, sideGet]
    · rfl
  | confirmDiscard =>
    simp only [handleDiscard]
    split
    · have hc := discardLoop_count [4, 3, 2, 1, 0] s.discardSel s.player.hand
        s.player.discardPile
      rw [adjSum_startEnemyTurn _ (by simp [isTerminal, hstate]) sd]
      cases sd
      all_goals simp_all [adjSum, stagedCount, counterCount, returningCount,
        discardingCount, isTerminal, sideGet]
      all_goals omega
    · rfl
  | _ => rfl

theorem adjSum_handleCounter (op : Op) (s : CombatSM)
    (hstate : s.state = CombatState.WAITING_FOR_COUNTER)
    (hcounter : s.counter = none) (sd : Side) :
    adjSum sd (handleCounter op s) = adjSum sd s := by
  have hterm : isTerminal s = false := by simp [isTerminal, hstate]
  cases op with
  | skipCounter =>
    cases sd
    all_goals simp_all [handleCounter, adjSum, stagedCount, counterCount,
      returningCount, discardingCount, isTerminal, sideGet]
  | draw =>
    simp only [handleCounter]
    split
    · have hc := drawCard_count s.player
      have hdp := drawCard_discardPile s.player
      cases sd
      all_goals simp_all [adjSum, stagedCount, counterCount, returningCount,
        discardingCount, isTerminal, sideGet]
    · rfl
  | playDefense i =>
    exact adjSum_startCounterAnimation i s hcounter hterm sd
  | _ => rfl

theorem adjSum_handleResolve (op : Op) (s : CombatSM)
    (hstate : s.state = CombatState.WAITING_FOR_RESOLVE ∨
      s.state = CombatState.RESOLVE_WITH_COUNTER)
    (hret : s.returning = none) (sd : Side) :
    adjSum sd (handleResolve op s) = adjSum sd s := by
  have hterm : isTerminal s = false := by
    rcases hstate with h | h <;> simp [isTerminal, h]
  cases op with
  | resolveStaged => exact adjSum_resolveStagedCard s hstate sd
  | cancelStaged =>
    simp only [handleResolve]
    cases hst : s.staged with
    | none => rfl
    | some st =>
      simp only [hst]
      split
      · next how =>
        exact adjSum_cancelStagedCard s st hst how hret hterm sd
      · rfl
  | _ => rfl

/-! ## Round bookkeeping: only a session reset changes `round` -/

theorem round_resetCombat (s : CombatSM) :
    (resetCombat s).round = s.round + 1 := rfl

theorem round_startCardAnimation (i : Nat) (o : Side) (s : CombatSM) :
    (startCardAnimation i o s).round = s.round := by
  unfold startCardAnimation
  cases hget : (sideGet o s).hand.get? i
  · rfl
  · cases o <;> simp [sideGet, sideSet]

theorem round_cancelStagedCard (s : CombatSM) :
    (cancelStagedCard s).round = s.round := by
  unfold cancelStagedCard
  cases s.staged <;> rfl

theorem round_startEnemyDiscardAnimation (i : Nat) (s : CombatSM) :
    (startEnemyDiscardAnimation i s).round = s.round := by
  unfold startEnemyDiscardAnimation
  cases s.enemy.hand.get? i <;> rfl

theorem round_startCounterAnimation (i : Nat) (s : CombatSM) :
    (startCounterAnimation i s).round = s.round := by
  unfold startCounterAnimation
  repeat' split
  all_goals rfl

theorem round_resolveStagedCard (s : CombatSM) :
    (resolveStagedCard s).round = s.round := by
  unfold resolveStagedCard
  cases hst : s.staged
  · rfl
  · rw [resolveFinish_round, checkVitalSigns_round, appendDiscardOf_round,
      resolveApplyEffect_round]

theorem round_executeEnemyAction (s : CombatSM) :
    (executeEnemyAction s).round = s.round := by
  unfold executeEnemyAction
  split
  · rfl
  · split
    · rw [round_startCardAnimation]
    · rw [round_startEnemyDiscardAnimation]

theorem round_reshuffleMove (s : CombatSM) :
    (reshuffleMove s).round = s.round := by
  unfold reshuffleMove
  repeat' split
  all_goals rfl

theorem round_executeReshuffle (s : CombatSM) :
    (executeReshuffle s).round = s.round := by
  unfold executeReshuffle startEnemyTurn
  repeat' split
  all_goals simp [round_reshuffleMove]

theorem round_animationComplete (s : CombatSM) :
    (animationComplete s).round = s.round := by
  unfold animationComplete
  repeat' split
  all_goals rfl

theorem round_updateAnimations (dt : ℚ) (s : CombatSM) :
    (updateAnimations dt s).round = s.round := by
  unfold updateAnimations
  split
  · rw [round_animationComplete]
  · rfl

theorem round_update (dt : ℚ) (s : CombatSM) :
    (update dt s).round = s.round := by
  unfold update
  repeat' split
  all_goals
    first
    | rfl
    | rw [round_executeEnemyAction]
    | rw [round_executeReshuffle]
    | rw [round_updateAnimations]

theorem round_handlePlayerTurn (op : Op) (s : CombatSM) :
    (handlePlayerTurn op s).round = s.round := by
  cases op <;> simp only [handlePlayerTurn]
  all_goals repeat' split
  all_goals
    first
    | rfl
    | rw [round_startCardAnimation]

theorem round_handleDiscard (op : Op) (s : CombatSM) :
    (handleDiscard op s).round = s.round := by
  cases op <;> simp only [handleDiscard]
  all_goals repeat' split
  all_goals rfl

theorem round_handleCounter (op : Op) (s : CombatSM) :
    (handleCounter op s).round = s.round := by
  cases op <;> simp only [handleCounter]
  all_goals repeat' split
  all_goals
    first
    | rfl
    | rw [round_startCounterAnimation]

theorem round_handleResolve (op : Op) (s : CombatSM) :
    (handleResolve op s).round = s.round := by
  cases op <;> simp only [handleResolve]
  all_goals repeat' split
  all_goals
    first
    | rfl
    | rw [round_resolveStagedCard]
    | rw [round_cancelStagedCard]

theorem round_step (op : Op) (s : CombatSM) :
    (step op s).round = s.round ∨ (step op s).round = s.round + 1 := by
  cases op with
  | advance dt => exact Or.inl (round_update dt s)
  | _ =>
    simp only [step]
    cases hst : s.state
    all_goals simp only [handleClick, hst]
    all_goals
      first
      | exact Or.inr (round_resetCombat s)
      | exact Or.inl (round_handlePlayerTurn _ s)
      | exact Or.inl (round_handleDiscard _ s)
      | exact Or.inl (round_handleCounter _ s)
      | exact Or.inl (round_handleResolve _ s)
      | exact Or.inl rfl
      | exact Or.inl trivial

/-! ## Conservation of the adjusted sum over a full engine step -/

theorem adjSum_update (dt : ℚ) (s : CombatSM) (hwf : WF s) (sd : Side) :
    adjSum sd (update dt s) = adjSum sd s := by
  unfold update
  split
  · next hst =>
    split
    · have hstaged : s.staged = none := hwf.stagedNone (by simp [hst])
      have hdisc : s.discarding = none := by
        cases hd : s.discarding with
        | none => rfl
        | some c =>
          have h2 := hwf.discState (by simp [hd])
          rw [hst] at h2
          exact absurd h2 (by decide)
      rw [adjSum_executeEnemyAction { s with thinkTimer := s.thinkTimer + dt }
        (by simp [hst]) (by simp [hstaged]) (by simp [hdisc]) sd]
      cases sd
      all_goals simp [adjSum, stagedCount, counterCount, returningCount,
        discardingCount, isTerminal, sideGet]
    · cases sd
      all_goals simp [adjSum, stagedCount, counterCount, returningCount,
        discardingCount, isTerminal, sideGet]
  · next hst =>
    split
    · obtain ⟨t, htgt, hdeck⟩ := hwf.rsTarget hst
      rw [adjSum_executeReshuffle { s with reshuffleTimer := s.reshuffleTimer + dt }
        (by simp [hst]) (by
          refine ⟨t, by simp [htgt], ?_⟩
          cases t <;> simpa [sideGet] using hdeck) sd]
      cases sd
      all_goals simp [adjSum, stagedCount, counterCount, returningCount,
        discardingCount, isTerminal, sideGet]
    · cases sd
      all_goals simp [adjSum, stagedCount, counterCount, returningCount,
        discardingCount, isTerminal, sideGet]
  all_goals
    first
    | exact adjSum_updateAnimations dt s sd
    | rfl

theorem adjSum_step (op : Op) (s : CombatSM) (hwf : WF s)
    (hr : (step op s).round = s.round) (sd : Side) :
    adjSum sd (step op s) = adjSum sd s := by
  cases op with
  | advance dt => exact adjSum_update dt s hwf sd
  | _ =>
    simp only [step] at hr ⊢
    cases hst : s.state
    all_goals simp only [handleClick, hst] at hr ⊢
    case VICTORY =>
      rw [round_resetCombat] at hr
      omega
    case DEFEAT =>
      rw [round_resetCombat] at hr
      omega
    case PLAYER_TURN =>
      exact adjSum_handlePlayerTurn _ s hst (hwf.stagedNone (by simp [hst])) sd
    case PLAYER_DISCARDING =>
      exact adjSum_handleDiscard _ s hst sd
    case WAITING_FOR_COUNTER =>
      exact adjSum_handleCounter _ s hst (hwf.wfcClean hst).1 sd
    case WAITING_FOR_RESOLVE =>
      refine adjSum_handleResolve _ s (Or.inl hst) ?_ sd
      cases hrt : s.returning with
      | none => rfl
      | some x =>
        have h2 := (hwf.retStaged (by simp [hrt])).2
        rw [hst] at h2
        exact absurd h2 (by decide)
    case RESOLVE_WITH_COUNTER =>
      refine adjSum_handleResolve _ s (Or.inr hst) ?_ sd
      cases hrt : s.returning with
      | none => rfl
      | some x =>
        have h2 := (hwf.retStaged (by simp [hrt])).2
        rw [hst] at h2
        exact absurd h2 (by decide)

/-! ## Preservation of well-formedness (C2) -/

theorem wf_quiet (s : CombatSM)
    (hstaged : s.staged = none) (hret : s.returning = none)
    (hdisc : s.discarding = none) (hcounter : s.counter = none)
    (hwfc : s.state ≠ CombatState.WAITING_FOR_COUNTER)
    (hrs : s.state ≠ CombatState.RESHUFFLING) : WF s := by
  constructor
  · intro _; exact hstaged
  · intro h; exact absurd hret h
  · intro h; exact absurd hdisc h
  · intro h; exact absurd h hwfc
  · intro h; exact absurd hcounter h
  · intro h; exact absurd h hrs

theorem counter_none_of_state (s : CombatSM) (hwf : WF s)
    (h1 : s.state ≠ CombatState.COUNTER_ANIMATING)
    (h2 : s.state ≠ CombatState.RESOLVE_WITH_COUNTER) : s.counter = none := by
  cases hc : s.counter with
  | none => rfl
  | some x =>
    rcases (hwf.counterAt (by simp [hc])).1 with h | h
    · exact absurd h h1
    · exact absurd h h2

theorem returning_none_of_state (s : CombatSM) (hwf : WF s)
    (h1 : s.state ≠ CombatState.PLAYER_CARD_ANIMATING) : s.returning = none := by
  cases hc : s.returning with
  | none => rfl
  | some x => exact absurd (hwf.retStaged (by simp [hc])).2 h1

theorem discarding_none_of_state (s : CombatSM) (hwf : WF s)
    (h1 : s.state ≠ CombatState.ENEMY_DISCARD_ANIMATING) : s.discarding = none := by
  cases hc : s.discarding with
  | none => rfl
  | some x => exact absurd (hwf.discState (by simp [hc])) h1

theorem wf_startEnemyTurn (s : CombatSM)
    (hstaged : s.staged = none) (hret : s.returning = none)
    (hdisc : s.discarding = none) (hcounter : s.counter = none) :
    WF (startEnemyTurn s) := by
  apply wf_quiet
  all_goals simp [startEnemyTurn, hstaged, hret, hdisc, hcounter]

theorem wf_startCardAnimation (i : Nat) (o : Side) (s : CombatSM) (hwf : WF s)
    (hret : s.returning = none) (hdisc : s.discarding = none)
    (hcounter : s.counter = none) :
    WF (startCardAnimation i o s) := by
  unfold startCardAnimation
  cases hget : (sideGet o s).hand.get? i with
  | none => exact hwf
  | some c =>
    cases o
    all_goals constructor
    all_goals intro h
    all_goals simp_all [sideGet, sideSet, stagedEnemyAttack]

theorem wf_cancelStagedCard (s : CombatSM) (hwf : WF s)
    (hdisc : s.discarding = none) (hcounter : s.counter = none) :
    WF (cancelStagedCard s) := by
  unfold cancelStagedCard
  cases hst : s.staged with
  | none => exact hwf
  | some st =>
    constructor
    all_goals intro h
    all_goals simp_all [stagedEnemyAttack]

theorem wf_startEnemyDiscardAnimation (i : Nat) (s : CombatSM) (hwf : WF s)
    (hstaged : s.staged = none) (hret : s.returning = none)
    (hcounter : s.counter = none) :
    WF (startEnemyDiscardAnimation i s) := by
  unfold startEnemyDiscardAnimation
  cases hget : s.enemy.hand.get? i with
  | none => exact hwf
  | some c =>
    constructor
    all_goals intro h
    all_goals simp_all [stagedEnemyAttack]

theorem wf_startCounterAnimation (i : Nat) (s : CombatSM) (hwf : WF s)
    (hstate : s.state = CombatState.WAITING_FOR_COUNTER)
    (hret : s.returning = none) (hdisc : s.discarding = none) :
    WF (startCounterAnimation i s) := by
  obtain ⟨hcn, hsea⟩ := hwf.wfcClean hstate
  unfold startCounterAnimation
  cases hget : s.player.hand.get? i with
  | none => exact hwf
  | some c =>
    show (if c.isDefense then
        { s with
          player := { s.player with hand := s.player.hand.eraseIdx i },
          counter := some (c, i),
          anims := s.anims ++ [⟨0, 1 / 5⟩],
          state := .COUNTER_ANIMATING }
      else s).WF
    by_cases hd : c.isDefense = true
    · rw [if_pos hd]
      obtain ⟨st, hst, how, d, hcard⟩ := hsea
      constructor
      all_goals intro h
      all_goals simp_all [stagedEnemyAttack]
    · rw [if_neg hd]
      exact hwf

theorem resolveApplyEffect_returning (st : Staged) (s : CombatSM) :
    (resolveApplyEffect st s).returning = s.returning := by
  unfold resolveApplyEffect playCardEffect
  repeat' split
  all_goals cases st.owner
  all_goals simp [sideSet, sideGet, other, Player.takeDamage, Player.heal]

theorem resolveApplyEffect_discarding (st : Staged) (s : CombatSM) :
    (resolveApplyEffect st s).discarding = s.discarding := by
  unfold resolveApplyEffect playCardEffect
  repeat' split
  all_goals cases st.owner
  all_goals simp [sideSet, sideGet, other, Player.takeDamage, Player.heal]

theorem resolveApplyEffect_counter_none (st : Staged) (s : CombatSM)
    (h : s.counter = none ∨ ∃ d, st.card = Card.attack d) :
    (resolveApplyEffect st s).counter = none := by
  unfold resolveApplyEffect playCardEffect
  rcases h with h | ⟨d, hd⟩
  · rw [h]
    cases hcd : st.card
    all_goals cases st.owner
    all_goals simp [sideSet, sideGet, other, Player.takeDamage, Player.heal]
    all_goals exact h
  · rw [hd]
    cases hc : s.counter
    all_goals cases st.owner
    all_goals simp [sideSet, sideGet, other, Player.takeDamage, Player.heal]
    all_goals exact hc

theorem appendDiscardOf_returning (o : Side) (c : Card) (s : CombatSM) :
    (appendDiscardOf o c s).returning = s.returning := by
  cases o <;> simp [appendDiscardOf, sideGet, sideSet]

theorem appendDiscardOf_discarding (o : Side) (c : Card) (s : CombatSM) :
    (appendDiscardOf o c s).discarding = s.discarding := by
  cases o <;> simp [appendDiscardOf, sideGet, sideSet]

theorem appendDiscardOf_counter (o : Side) (c : Card) (s : CombatSM) :
    (appendDiscardOf o c s).counter = s.counter := by
  cases o <;> simp [appendDiscardOf, sideGet, sideSet]

theorem checkVitalSigns_state_cases (s : CombatSM) :
    (checkVitalSigns s).state = s.state ∨
      (checkVitalSigns s).state = CombatState.VICTORY ∨
      (checkVitalSigns s).state = CombatState.DEFEAT := by
  unfold checkVitalSigns
  repeat' split
  all_goals simp

theorem reshuffleMove_staged (s : CombatSM) :
    (reshuffleMove s).staged = s.staged := by
  unfold reshuffleMove; repeat' split; all_goals rfl

theorem reshuffleMove_returning (s : CombatSM) :
    (reshuffleMove s).returning = s.returning := by
  unfold reshuffleMove; repeat' split; all_goals rfl

theorem reshuffleMove_discarding (s : CombatSM) :
    (reshuffleMove s).discarding = s.discarding := by
  unfold reshuffleMove; repeat' split; all_goals rfl

theorem reshuffleMove_counter (s : CombatSM) :
    (reshuffleMove s).counter = s.counter := by
  unfold reshuffleMove; repeat' split; all_goals rfl

theorem wf_resolveStagedCard (s : CombatSM) (hwf : WF s)
    (hstate : s.state = CombatState.WAITING_FOR_RESOLVE ∨
      s.state = CombatState.RESOLVE_WITH_COUNTER) :
    WF (resolveStagedCard s) := by
  unfold resolveStagedCard
  cases hst : s.staged with
  | none => exact hwf
  | some st =>
    show WF (resolveFinish st.owner
      (checkVitalSigns (appendDiscardOf st.owner st.card (resolveApplyEffect st s))))
    have hret : s.returning = none :=
      returning_none_of_state s hwf (by rcases hstate with h | h <;> simp [h])
    have hdisc : s.discarding = none :=
      discarding_none_of_state s hwf (by rcases hstate with h | h <;> simp [h])
    have hcntOr : s.counter = none ∨ ∃ d, st.card = Card.attack d := by
      cases hc : s.counter with
      | none => exact Or.inl rfl
      | some cp =>
        obtain ⟨st', hst', how', d, hcd⟩ := (hwf.counterAt (by simp [hc])).2
        rw [hst] at hst'
        cases hst'
        exact Or.inr ⟨d, hcd⟩
    have h3staged :
        (checkVitalSigns (appendDiscardOf st.owner st.card
          (resolveApplyEffect st s))).staged = some st := by
      rw [checkVitalSigns_staged, appendDiscardOf_staged, resolveApplyEffect_staged, hst]
    have h3ret :
        (checkVitalSigns (appendDiscardOf st.owner st.card
          (resolveApplyEffect st s))).returning = none := by
      rw [checkVitalSigns_returning, appendDiscardOf_returning,
        resolveApplyEffect_returning, hret]
    have h3disc :
        (checkVitalSigns (appendDiscardOf st.owner st.card
          (resolveApplyEffect st s))).discarding = none := by
      rw [checkVitalSigns_discarding, appendDiscardOf_discarding,
        resolveApplyEffect_discarding, hdisc]
    have h3cnt :
        (checkVitalSigns (appendDiscardOf st.owner st.card
          (resolveApplyEffect st s))).counter = none := by
      rw [checkVitalSigns_counter, appendDiscardOf_counter]
      exact resolveApplyEffect_counter_none st s hcntOr
    have h3state :
        (checkVitalSigns (appendDiscardOf st.owner st.card
          (resolveApplyEffect st s))).state = s.state ∨
        (checkVitalSigns (appendDiscardOf st.owner st.card
          (resolveApplyEffect st s))).state = CombatState.VICTORY ∨
        (checkVitalSigns (appendDiscardOf st.owner st.card
          (resolveApplyEffect st s))).state = CombatState.DEFEAT := by
      rcases checkVitalSigns_state_cases
        (appendDiscardOf st.owner st.card (resolveApplyEffect st s)) with h | h | h
      · rw [appendDiscardOf_state, resolveApplyEffect_state] at h
        exact Or.inl h
      · exact Or.inr (Or.inl h)
      · exact Or.inr (Or.inr h)
    unfold resolveFinish
    split
    · next hterm =>
      constructor
      · intro h
        rcases hterm with ht | ht <;> rw [ht] at h <;>
          rcases h with h | h | h | h | h <;> simp at h
      · intro h; exact absurd h3ret h
      · intro h; exact absurd h3disc h
      · intro h
        rcases hterm with ht | ht <;> rw [ht] at h <;> simp at h
      · intro h; exact absurd h3cnt h
      · intro h
        rcases hterm with ht | ht <;> rw [ht] at h <;> simp at h
    · next hterm =>
      have hs3state :
          (checkVitalSigns (appendDiscardOf st.owner st.card
            (resolveApplyEffect st s))).state = s.state := by
        rcases h3state with h | h | h
        · exact h
        · exact absurd (Or.inl h) hterm
        · exact absurd (Or.inr h) hterm
      unfold resolveProgress
      split
      · next hcond =>
        constructor
        · intro _; simp [startReshuffle]
        · intro h; simp [startReshuffle] at h; exact absurd h3ret h
        · intro h; simp [startReshuffle] at h; exact absurd h3disc h
        · intro h; simp [startReshuffle] at h
        · intro h; simp [startReshuffle] at h; exact absurd h3cnt h
        · intro _
          refine ⟨.player, by simp [startReshuffle], ?_⟩
          simp [startReshuffle, sideGet]
          exact hcond.2.1
      · split
        · next hcond =>
          constructor
          · intro _; simp [startReshuffle]
          · intro h; simp [startReshuffle] at h; exact absurd h3ret h
          · intro h; simp [startReshuffle] at h; exact absurd h3disc h
          · intro h; simp [startReshuffle] at h
          · intro h; simp [startReshuffle] at h; exact absurd h3cnt h
          · intro _
            refine ⟨.enemy, by simp [startReshuffle], ?_⟩
            simp [startReshuffle, sideGet]
            exact hcond.2.1
        · split
          · -- last-stand branch: the cleared state is returned unchanged
            constructor
            · intro _; rfl
            · intro h; exact absurd h3ret h
            · intro h; exact absurd h3disc h
            · intro h
              rw [hs3state] at h
              rcases hstate with h' | h' <;> rw [h'] at h <;> simp at h
            · intro h; exact absurd h3cnt h
            · intro h
              rw [hs3state] at h
              rcases hstate with h' | h' <;> rw [h'] at h <;> simp at h
          · cases how : st.owner with
            | player =>
              rw [how] at h3ret h3disc h3cnt
              apply wf_startEnemyTurn
              · rfl
              · exact h3ret
              · exact h3disc
              · exact h3cnt
            | enemy =>
              rw [how] at h3ret h3disc h3cnt
              apply wf_quiet
              · rfl
              · exact h3ret
              · exact h3disc
              · exact h3cnt
              · simp
              · simp

theorem wf_anims (s : CombatSM) (x : List Anim) (hwf : WF s) :
    WF { s with anims := x } :=
  ⟨hwf.stagedNone, hwf.retStaged, hwf.discState, hwf.wfcClean, hwf.counterAt,
    hwf.rsTarget⟩

theorem wf_thinkTimer (s : CombatSM) (x : ℚ) (hwf : WF s) :
    WF { s with thinkTimer := x } :=
  ⟨hwf.stagedNone, hwf.retStaged, hwf.discState, hwf.wfcClean, hwf.counterAt,
    hwf.rsTarget⟩

theorem wf_reshuffleTimer (s : CombatSM) (x : ℚ) (hwf : WF s) :
    WF { s with reshuffleTimer := x } :=
  ⟨hwf.stagedNone, hwf.retStaged, hwf.discState, hwf.wfcClean, hwf.counterAt,
    hwf.rsTarget⟩

theorem stagedEnemyAttack_of_window (s : CombatSM)
    (h : shouldOpenCounterWindow s = true) : stagedEnemyAttack s := by
  unfold shouldOpenCounterWindow at h
  cases hst : s.staged with
  | none => rw [hst] at h; simp at h
  | some st =>
    rw [hst] at h
    simp only [Bool.and_eq_true, decide_eq_true_eq] at h
    obtain ⟨⟨how, hatk⟩, _⟩ := h
    cases hcd : st.card with
    | attack d => exact ⟨st, hst, how, d, hcd⟩
    | heal a => rw [hcd] at hatk; simp [Card.isAttack] at hatk
    | defense v => rw [hcd] at hatk; simp [Card.isAttack] at hatk

theorem wf_animationComplete (s : CombatSM) (hwf : WF s) :
    WF (animationComplete s) := by
  unfold animationComplete
  split
  · -- PLAYER_CARD_ANIMATING
    next hst =>
    have hdisc : s.discarding = none :=
      discarding_none_of_state s hwf (by simp [hst])
    have hcnt : s.counter = none :=
      counter_none_of_state s hwf (by simp [hst]) (by simp [hst])
    cases hr : s.returning with
    | some rc =>
      have hstaged : s.staged = none := (hwf.retStaged (by simp [hr])).1
      apply wf_quiet
      all_goals simp [hstaged, hdisc, hcnt]
    | none =>
      constructor
      all_goals intro h
      all_goals simp_all
  · -- ENEMY_CARD_ANIMATING
    next hst =>
    have hret : s.returning = none :=
      returning_none_of_state s hwf (by simp [hst])
    have hdisc : s.discarding = none :=
      discarding_none_of_state s hwf (by simp [hst])
    have hcnt : s.counter = none :=
      counter_none_of_state s hwf (by simp [hst]) (by simp [hst])
    split
    · next hwin =>
      constructor
      · intro h; rcases h with h | h | h | h | h <;> simp at h
      · intro h; exact absurd hret h
      · intro h; exact absurd hdisc h
      · intro _
        refine ⟨hcnt, ?_⟩
        obtain ⟨st, hs, how, d, hcd⟩ := stagedEnemyAttack_of_window s hwin
        exact ⟨st, hs, how, d, hcd⟩
      · intro h; exact absurd hcnt h
      · intro h; simp at h
    · constructor
      · intro h; rcases h with h | h | h | h | h <;> simp at h
      · intro h; exact absurd hret h
      · intro h; exact absurd hdisc h
      · intro h; simp at h
      · intro h; exact absurd hcnt h
      · intro h; simp at h
  · -- ENEMY_DISCARD_ANIMATING
    next hst =>
    have hstaged : s.staged = none := hwf.stagedNone (by simp [hst])
    have hret : s.returning = none :=
      returning_none_of_state s hwf (by simp [hst])
    have hcnt : s.counter = none :=
      counter_none_of_state s hwf (by simp [hst]) (by simp [hst])
    apply wf_quiet
    all_goals simp [hstaged, hret, hcnt]
  · -- COUNTER_ANIMATING
    next hst =>
    have hret : s.returning = none :=
      returning_none_of_state s hwf (by simp [hst])
    have hdisc : s.discarding = none :=
      discarding_none_of_state s hwf (by simp [hst])
    constructor
    · intro h; rcases h with h | h | h | h | h <;> simp at h
    · intro h; exact absurd hret h
    · intro h; exact absurd hdisc h
    · intro h; simp at h
    · intro h
      refine ⟨Or.inr rfl, ?_⟩
      exact (hwf.counterAt h).2
    · intro h; simp at h
  · exact hwf

theorem wf_updateAnimations (dt : ℚ) (s : CombatSM) (hwf : WF s) :
    WF (updateAnimations dt s) := by
  unfold updateAnimations
  split
  · exact wf_animationComplete _ (wf_anims s _ hwf)
  · exact wf_anims s _ hwf

theorem wf_executeEnemyAction (s : CombatSM) (hwf : WF s)
    (hstate : s.state = CombatState.ENEMY_THINKING) :
    WF (executeEnemyAction s) := by
  have hstaged : s.staged = none := hwf.stagedNone (by simp [hstate])
  have hret : s.returning = none :=
    returning_none_of_state s hwf (by simp [hstate])
  have hdisc : s.discarding = none :=
    discarding_none_of_state s hwf (by simp [hstate])
  have hcnt : s.counter = none :=
    counter_none_of_state s hwf (by simp [hstate]) (by simp [hstate])
  unfold executeEnemyAction
  split
  · apply wf_quiet
    all_goals simp [hstaged, hret, hdisc, hcnt]
  · split
    · exact wf_startCardAnimation _ _ s hwf hret hdisc hcnt
    · exact wf_startEnemyDiscardAnimation 0 s hwf hstaged hret hcnt

theorem wf_executeReshuffle (s : CombatSM) (hwf : WF s)
    (hstate : s.state = CombatState.RESHUFFLING) :
    WF (executeReshuffle s) := by
  have hstaged : s.staged = none := hwf.stagedNone (by simp [hstate])
  have hret : s.returning = none :=
    returning_none_of_state s hwf (by simp [hstate])
  have hdisc : s.discarding = none :=
    discarding_none_of_state s hwf (by simp [hstate])
  have hcnt : s.counter = none :=
    counter_none_of_state s hwf (by simp [hstate]) (by simp [hstate])
  unfold executeReshuffle
  rw [if_neg (by simp [hstate])]
  split
  · apply wf_startEnemyTurn
    all_goals
      simp [reshuffleMove_staged, reshuffleMove_returning, reshuffleMove_discarding,
        reshuffleMove_counter, hstaged, hret, hdisc, hcnt]
  · apply wf_quiet
    · simp [reshuffleMove_staged, hstaged]
    · simp [reshuffleMove_returning, hret]
    · simp [reshuffleMove_discarding, hdisc]
    · simp [reshuffleMove_counter, hcnt]
    · simp
    · simp

theorem wf_update (dt : ℚ) (s : CombatSM) (hwf : WF s) : WF (update dt s) := by
  unfold update
  split
  · next hst =>
    split
    · exact wf_executeEnemyAction _ (wf_thinkTimer s _ hwf) hst
    · exact wf_thinkTimer s _ hwf
  · next hst =>
    split
    · exact wf_executeReshuffle _ (wf_reshuffleTimer s _ hwf) hst
    · exact wf_reshuffleTimer s _ hwf
  all_goals first
  | exact wf_updateAnimations dt s hwf
  | exact hwf

theorem wf_handlePlayerTurn (op : Op) (s : CombatSM) (hwf : WF s)
    (hstate : s.state = CombatState.PLAYER_TURN) :
    WF (handlePlayerTurn op s) := by
  have hstaged : s.staged = none := hwf.stagedNone (by simp [hstate])
  have hret : s.returning = none :=
    returning_none_of_state s hwf (by simp [hstate])
  have hdisc : s.discarding = none :=
    discarding_none_of_state s hwf (by simp [hstate])
  have hcnt : s.counter = none :=
    counter_none_of_state s hwf (by simp [hstate]) (by simp [hstate])
  cases op
  all_goals simp only [handlePlayerTurn]
  all_goals repeat' split
  all_goals first
  | exact hwf
  | exact wf_startEnemyTurn s hstaged hret hdisc hcnt
  | exact wf_startCardAnimation _ _ s hwf hret hdisc hcnt
  | (apply wf_quiet <;>
      simp [debugAutoWin, debugAutoLose, startDiscardSelect, hstaged, hret,
        hdisc, hcnt, hstate])

theorem wf_handleDiscard (op : Op) (s : CombatSM) (hwf : WF s)
    (hstate : s.state = CombatState.PLAYER_DISCARDING) :
    WF (handleDiscard op s) := by
  have hstaged : s.staged = none := hwf.stagedNone (by simp [hstate])
  have hret : s.returning = none :=
    returning_none_of_state s hwf (by simp [hstate])
  have hdisc : s.discarding = none :=
    discarding_none_of_state s hwf (by simp [hstate])
  have hcnt : s.counter = none :=
    counter_none_of_state s hwf (by simp [hstate]) (by simp [hstate])
  cases op
  all_goals simp only [handleDiscard]
  all_goals repeat' split
  all_goals first
  | exact hwf
  | (apply wf_startEnemyTurn <;> simp [hstaged, hret, hdisc, hcnt])
  | (apply wf_quiet <;> simp [hstaged, hret, hdisc, hcnt, hstate])

theorem wf_handleCounter (op : Op) (s : CombatSM) (hwf : WF s)
    (hstate : s.state = CombatState.WAITING_FOR_COUNTER) :
    WF (handleCounter op s) := by
  obtain ⟨hcn, hsea⟩ := hwf.wfcClean hstate
  have hret : s.returning = none :=
    returning_none_of_state s hwf (by simp [hstate])
  have hdisc : s.discarding = none :=
    discarding_none_of_state s hwf (by simp [hstate])
  cases op
  all_goals simp only [handleCounter]
  all_goals repeat' split
  all_goals first
  | exact hwf
  | exact wf_startCounterAnimation _ s hwf hstate hret hdisc
  | (constructor
     all_goals intro h
     all_goals first
     | exact ⟨hcn, hsea⟩
     | simp_all)

theorem wf_handleResolve (op : Op) (s : CombatSM) (hwf : WF s)
    (hstate : s.state = CombatState.WAITING_FOR_RESOLVE ∨
      s.state = CombatState.RESOLVE_WITH_COUNTER) :
    WF (handleResolve op s) := by
  have hdisc : s.discarding = none :=
    discarding_none_of_state s hwf (by rcases hstate with h | h <;> simp [h])
  cases op
  all_goals simp only [handleResolve]
  all_goals try exact hwf
  · exact wf_resolveStagedCard s hwf hstate
  · -- cancelStaged
    cases hst : s.staged with
    | none => exact hwf
    | some st =>
      show WF (if st.owner = .player then cancelStagedCard s else s)
      split
      · next how =>
        have hcnt : s.counter = none := by
          cases hc : s.counter with
          | none => rfl
          | some cp =>
            obtain ⟨st', hst', how', d, hcd⟩ := (hwf.counterAt (by simp [hc])).2
            rw [hst] at hst'
            cases hst'
            rw [how] at how'
            exact absurd how' (by simp)
        exact wf_cancelStagedCard s hwf hdisc hcnt
      · exact hwf

theorem wf_resetCombat (s : CombatSM) : WF (resetCombat s) := by
  apply wf_quiet
  all_goals simp [resetCombat]

theorem wf_handleClick (op : Op) (s : CombatSM) (hwf : WF s) :
    WF (handleClick op s) := by
  cases hst : s.state
  all_goals simp only [handleClick, hst]
  · exact wf_handlePlayerTurn op s hwf hst
  · exact wf_handleDiscard op s hwf hst
  · exact hwf
  · exact hwf
  · exact hwf
  · exact hwf
  · exact wf_handleCounter op s hwf hst
  · exact hwf
  · exact wf_handleResolve op s hwf (Or.inl hst)
  · exact wf_handleResolve op s hwf (Or.inr hst)
  · exact hwf
  · exact wf_resetCombat s
  · exact wf_resetCombat s

theorem wf_step (op : Op) (s : CombatSM) (hwf : WF s) : WF (step op s) := by
  cases op with
  | advance dt => exact wf_update dt s hwf
  | draw => exact wf_handleClick _ s hwf
  | pass => exact wf_handleClick _ s hwf
  | beginDiscard => exact wf_handleClick _ s hwf
  | playCard i => exact wf_handleClick _ s hwf
  | toggleDiscard i => exact wf_handleClick _ s hwf
  | confirmDiscard => exact wf_handleClick _ s hwf
  | cancelDiscard => exact wf_handleClick _ s hwf
  | resolveStaged => exact wf_handleClick _ s hwf
  | cancelStaged => exact wf_handleClick _ s hwf
  | playDefense i => exact wf_handleClick _ s hwf
  | skipCounter => exact wf_handleClick _ s hwf
  | debugWin => exact wf_handleClick _ s hwf
  | debugLose => exact wf_handleClick _ s hwf

theorem wf_run (ops : List Op) (s : CombatSM) (hwf : WF s) : WF (run ops s) := by
  induction ops generalizing s with
  | nil => exact hwf
  | cons op rest ih => exact ih (step op s) (wf_step op s hwf)

theorem wf_mkCombat (pDeck eDeck : List Card) (enemyHp : Int) (persona : String)
    (debug : Bool) : WF (mkCombat pDeck eDeck enemyHp persona debug) := by
  apply wf_quiet
  all_goals simp [mkCombat]

theorem round_run_le (ops : List Op) (s : CombatSM) :
    s.round ≤ (run ops s).round := by
  induction ops generalizing s with
  | nil => exact Nat.le_refl _
  | cons op rest ih =>
    have h1 := round_step op s
    have h2 := ih (step op s)
    simp only [run]
    omega

theorem adjSum_run (ops : List Op) (s : CombatSM) (hwf : WF s)
    (hr : (run ops s).round = s.round) (sd : Side) :
    adjSum sd (run ops s) = adjSum sd s := by
  induction ops generalizing s with
  | nil => rfl
  | cons op rest ih =>
    simp only [run] at hr ⊢
    have hstep : (step op s).round = s.round := by
      have h1 := round_step op s
      have h2 := round_run_le rest (step op s)
      omega
    have hr' : (run rest (step op s)).round = (step op s).round := by
      rw [hstep]; exact hr
    calc adjSum sd (run rest (step op s))
        = adjSum sd (step op s) := ih (step op s) (wf_step op s hwf) hr'
      _ = adjSum sd s := adjSum_step op s hwf hstep sd

theorem extSum_eq_adjSum (sd : Side) (s : CombatSM)
    (h : isTerminal s = false) : extSum sd s = adjSum sd s := by
  unfold extSum claimSum adjSum
  rw [h]
  simp

/-- A time advance that finishes the (sole) staging animation in
`PLAYER_CARD_ANIMATING` with no returning card moves to
`WAITING_FOR_RESOLVE`. -/
theorem pca_complete_exec (s : CombatSM) (d2 : ℚ)
    (hstate : s.state = CombatState.PLAYER_CARD_ANIMATING)
    (hret : s.returning = none)
    (hanims : s.anims = [⟨0, 1 / 5⟩])
    (ht2 : 1 / 5 ≤ d2) :
    step (.advance d2) s = { s with anims := [], state := .WAITING_FOR_RESOLVE } := by
  have hdone : ¬((0 : ℚ) + d2 < 1 / 5) := by push_neg; linarith
  simp only [step, update, hstate]
  simp [updateAnimations, advanceAnims, hanims, hdone, animationComplete, hstate, hret]
  rw [if_pos (show (5 : ℚ)⁻¹ ≤ d2 by linarith)]
  have hlt : ¬ d2 < (5 : ℚ)⁻¹ := by linarith
  simp [List.filter, hlt]

/-- C2: amended card conservation.  For each side, in every state
reachable from combat start by any sequence of intents and time advances
within a single combat (no reset, expressed as an unchanged round
counter) that is not terminal, the spec's sum
`|hand| + |deck| + |discard| + (1 if staged) + (1 if counter)` extended
with the two in-transit slots the code also uses (the cancelled card
returning to the player's hand and the enemy's discard-fallback card)
equals its value at combat start.  The original five-term sum is not
invariant: a cancelled card in transit leaves it (see the
counterexample). -/
theorem card_conservation_amended (pDeck eDeck : List Card) (enemyHp : Int)
    (persona : String) (debug : Bool) (ops : List Op)
    (hr : (run ops (mkCombat pDeck eDeck enemyHp persona debug)).round =
      (mkCombat pDeck eDeck enemyHp persona debug).round)
    (hterm : isTerminal (run ops (mkCombat pDeck eDeck enemyHp persona debug))
      = false)
    (sd : Side) :
    extSum sd (run ops (mkCombat pDeck eDeck enemyHp persona debug)) =
      extSum sd (mkCombat pDeck eDeck enemyHp persona debug) := by
  have hwf := wf_mkCombat pDeck eDeck enemyHp persona debug
  have h := adjSum_run ops _ hwf hr sd
  rw [extSum_eq_adjSum sd _ hterm,
    extSum_eq_adjSum sd _ (by simp [isTerminal, mkCombat])]
  exact h

theorem card_conservation_amended_witness :
    (run [.draw, .pass] (mkCombat [Card.attack 2] [] 10 "balanced" false)).round =
      (mkCombat [Card.attack 2] [] 10 "balanced" false).round ∧
    isTerminal (run [.draw, .pass]
      (mkCombat [Card.attack 2] [] 10 "balanced" false)) = false ∧
    extSum .player (run [.draw, .pass]
        (mkCombat [Card.attack 2] [] 10 "balanced" false)) =
      extSum .player (mkCombat [Card.attack 2] [] 10 "balanced" false) :=
  ⟨by decide, by decide,
    card_conservation_amended [Card.attack 2] [] 10 "balanced" false
      [.draw, .pass] (by decide) (by decide) .player⟩

/-- C2 counterexample to the original five-term sum: draw the single
card, stage it, let the staging animation finish, cancel it.  The card
is then in transit back to the hand (`returning` slot): the spec's sum
for the player drops from 1 to 0 in a reachable, non-terminal state of
the same round. -/
theorem card_conservation_counterexample :
    claimSum .player (run opsC2 startC2) = 0 ∧
    claimSum .player startC2 = 1 ∧
    (run opsC2 startC2).round = startC2.round ∧
    isTerminal (run opsC2 startC2) = false := by
  have h3 := pca_complete_exec
    (step (.playCard 0) (step .draw startC2)) (1 / 5)
    rfl rfl rfl (le_refl _)
  have hrun : run opsC2 startC2 =
      step .cancelStaged (step (.advance (1 / 5))
        (step (.playCard 0) (step .draw startC2))) := rfl
  rw [hrun, h3]
  refine ⟨by decide, by decide, by decide, by decide⟩
